import Mathlib

/-!
Shallow embedding of the jet-pump solver core of `flow/jetflow.py` and
`flow/jetcheck.py` (woffl).  Python floats are modelled as exact rationals;
external collaborator objects (`ResMix`, `InFlow`, the `singlephase` helpers
and the outflow traverse) are modelled as bundles of total functions over
which the theorems quantify.  Loops of the source are embedded as
structurally recursive functions: loops with a hard iteration cap recurse on
the remaining iteration count, and the one loop bounded only by its
decreasing pressure (`tee_last`) recurses on a fuel that is proved below to
dominate the number of iterations the guard allows, so the embedded loop
exits exactly when the Python guard fails.
-/

/-- Last element of a list of rationals, 0 for the empty list: models the
numpy access `ray[-1]` (the arrays of the source are never empty there). -/
def lastD (l : List ℚ) : ℚ := l.getLastD 0

/-- Head element with default 0, models `ray[0]`. -/
def headQ (l : List ℚ) : ℚ := l.headD 0

/-- The composite trapezoid rule of `scipy.integrate.trapezoid(y, x)`:
sum of (x1 - x0) * (y0 + y1) / 2 over consecutive pairs. -/
def trapezoid : List ℚ → List ℚ → ℚ
  | y0 :: y1 :: ys, x0 :: x1 :: xs =>
      (x1 - x0) * (y0 + y1) / 2 + trapezoid (y1 :: ys) (x1 :: xs)
  | _, _ => 0

/-- Linear interpolation of `numpy.interp(x, xp, fp)` for a nonempty
increasing sequence `xp` of sample points: clamps to the first value for
x below the range, to the last value above it, and interpolates linearly
on the bracketing interval otherwise. -/
def npInterp (x : ℚ) : List ℚ → List ℚ → ℚ
  | x0 :: x1 :: xs, f0 :: f1 :: fs =>
      if x ≤ x0 then f0
      else if x ≤ x1 then f0 + (x - x0) * (f1 - f0) / (x1 - x0)
      else npInterp x (x1 :: xs) (f1 :: fs)
  | [_], f0 :: _ => f0
  | _, _ => 0

/-- Boolean masking `arr[mask]` of numpy. -/
def maskFilter (mask : List Bool) (l : List ℚ) : List ℚ :=
  (List.zip mask l).filterMap (fun p => if p.1 then some p.2 else none)

/-- Second-order interior stencil of `numpy.gradient` for non-uniform
spacing, at a point with left gap x1 - x0 and right gap x2 - x1. -/
def gradAt (f0 f1 f2 x0 x1 x2 : ℚ) : ℚ :=
  ((x1 - x0) ^ 2 * f2 + ((x2 - x1) ^ 2 - (x1 - x0) ^ 2) * f1 - (x2 - x1) ^ 2 * f0) /
    ((x1 - x0) * (x2 - x1) * (x2 - x0))

/-- Interior points of `numpy.gradient`, one value per interior sample. -/
def gradInterior : List ℚ → List ℚ → List ℚ
  | f0 :: f1 :: f2 :: fs, x0 :: x1 :: x2 :: xs =>
      gradAt f0 f1 f2 x0 x1 x2 :: gradInterior (f1 :: f2 :: fs) (x1 :: x2 :: xs)
  | _, _ => []

/-- Last two elements of a list (second-to-last, last), with default 0. -/
def last2D : List ℚ → ℚ × ℚ
  | [] => (0, 0)
  | [a] => (0, a)
  | [a, b] => (a, b)
  | _ :: a :: b :: bs => last2D (a :: b :: bs)

/-- Full `numpy.gradient(f, x)` with the default edge_order = 1: one-sided
differences at both ends and the second-order stencil inside.  numpy raises
for arrays of fewer than two samples, modelled as `none`. -/
def np_gradient (f x : List ℚ) : Option (List ℚ) :=
  match f, x with
  | f0 :: f1 :: fs, x0 :: x1 :: xs =>
      some ((f1 - f0) / (x1 - x0) ::
        (gradInterior (f0 :: f1 :: fs) (x0 :: x1 :: xs) ++
          [((last2D (f0 :: f1 :: fs)).2 - (last2D (f0 :: f1 :: fs)).1) /
            ((last2D (x0 :: x1 :: xs)).2 - (last2D (x0 :: x1 :: xs)).1)]))
  | _, _ => none

/-- External inflow-performance collaborator (`InFlow`): reservoir pressure
and the oil rate returned by `oil_flow(psu, method="pidx")`. -/
structure InFlow where
  pres : ℚ
  oil_flow : ℚ → ℚ

/-- External fluid-mixture collaborator (`ResMix`): every method of the
source is read on the instance conditioned at a pressure and temperature,
so each is modelled as a function of that pressure and temperature.
`qtot` models `sum(prop.condition(p, t).insitu_volm_flow(qoil))`. -/
structure MixProps where
  rho_mix : ℚ → ℚ → ℚ
  cmix : ℚ → ℚ → ℚ
  qtot : ℚ → ℚ → ℚ → ℚ

/-- External single-phase helper module (`flow.singlephase`), excluded from
the core by the spec; its functions are collaborator parameters. -/
structure SinglePhase where
  velocity : ℚ → ℚ → ℚ
  momentum : ℚ → ℚ → ℚ → ℚ
  massflow : ℚ → ℚ → ℚ → ℚ
  mom_to_psi : ℚ → ℚ → ℚ
  diff_press_static : ℚ → ℚ → ℚ

/-- Throat enterance kinetic energy (`enterance_ke`). -/
def enterance_ke (ken vte : ℚ) : ℚ := (1 + ken) * vte ^ 2 / 2

/-- Fluid incremental expansion energy (`incremental_ee`): trapezoid of
1/density against the unit-converted pressures 144 * 32.174 * p. -/
def incremental_ee (prs_ray rho_ray : List ℚ) : ℚ :=
  trapezoid (rho_ray.map (fun r => 1 / r)) (prs_ray.map (fun p => 144 * 32.174 * p))

/-- The parallel arrays grown by the stepped throat-entry search of
`tee_last` (lines 188-215 of `flow/jetflow.py`). -/
structure TeeState where
  pte_ray : List ℚ
  vte_ray : List ℚ
  rho_ray : List ℚ
  mach_ray : List ℚ
  kse_ray : List ℚ
  ese_ray : List ℚ
  tee_ray : List ℚ

/-- One iteration of the while-loop body of `tee_last`: step pressure down
by 50 psi, recondition the fluid, recompute velocity, mach, kinetic energy,
accumulate the trapezoidal expansion-energy increment over the last two
samples and append every array. -/
def teeStep (spc : SinglePhase) (mp : MixProps) (tsu ken ate qoil : ℚ)
    (st : TeeState) : TeeState :=
  let pte := lastD st.pte_ray - 50
  let qt := mp.qtot pte tsu qoil
  let vte := spc.velocity qt ate
  let rho := mp.rho_mix pte tsu
  let mach := vte / mp.cmix pte tsu
  let kse := enterance_ke ken vte
  let ese := lastD st.ese_ray +
    incremental_ee [lastD st.pte_ray, pte] [lastD st.rho_ray, rho]
  { pte_ray := st.pte_ray ++ [pte]
    vte_ray := st.vte_ray ++ [vte]
    rho_ray := st.rho_ray ++ [rho]
    mach_ray := st.mach_ray ++ [mach]
    kse_ray := st.kse_ray ++ [kse]
    ese_ray := st.ese_ray ++ [ese]
    tee_ray := st.tee_ray ++ [kse + ese] }

/-- The while-loop of `tee_last`: iterate `teeStep` while the terminal mach
number is at most 1 and the terminal pressure is above the 50 psi decrement.
The fuel only bounds the recursion; `teeLoop_exit` below shows that with the
fuel chosen in `tee_last` the loop always ends by the guard failing, exactly
as the Python loop does. -/
def teeLoop (spc : SinglePhase) (mp : MixProps) (tsu ken ate qoil : ℚ) :
    ℕ → TeeState → TeeState
  | 0, st => st
  | fuel + 1, st =>
      if lastD st.mach_ray ≤ 1 ∧ 50 < lastD st.pte_ray then
        teeLoop spc mp tsu ken ate qoil fuel (teeStep spc mp tsu ken ate qoil st)
      else st

/-- Fuel that dominates the number of 50 psi decrements available above the
pressure floor. -/
def teeFuel (psu : ℚ) : ℕ := (⌈psu / 50⌉).toNat

/-- Return bundle of `tee_last`: the Python function returns the first six
fields; the remaining arrays are the loop's internal state, kept so that the
theorems can speak about them. -/
structure TeeResult where
  tee_fin : ℚ
  qoil_std : ℚ
  pte_ray : List ℚ
  rho_ray : List ℚ
  vte_ray : List ℚ
  tee_ray : List ℚ
  mach_ray : List ℚ
  kse_ray : List ℚ
  ese_ray : List ℚ

/-- Throat enterance energy stepped search (`tee_last`, lines 157-222):
build the trace starting from the suction pressure, stepping 50 psi down
while mach is at most 1 and pressure is above 50; afterwards interpolate the
energy at mach = 1 when the terminal mach reached 1, and fall back to the
terminal energy value otherwise. -/
def tee_last (spc : SinglePhase) (mp : MixProps) (ipr : InFlow)
    (psu tsu ken ate : ℚ) : TeeResult :=
  let qoil := ipr.oil_flow psu
  let vte := spc.velocity (mp.qtot psu tsu qoil) ate
  let kse := enterance_ke ken vte
  let st0 : TeeState :=
    { pte_ray := [psu]
      vte_ray := [vte]
      rho_ray := [mp.rho_mix psu tsu]
      mach_ray := [vte / mp.cmix psu tsu]
      kse_ray := [kse]
      ese_ray := [0]
      tee_ray := [kse + 0] }
  let st := teeLoop spc mp tsu ken ate qoil (teeFuel psu) st0
  let tee_fin :=
    if 1 ≤ lastD st.mach_ray then npInterp 1 st.mach_ray st.tee_ray
    else lastD st.tee_ray
  { tee_fin := tee_fin
    qoil_std := qoil
    pte_ray := st.pte_ray
    rho_ray := st.rho_ray
    vte_ray := st.vte_ray
    tee_ray := st.tee_ray
    mach_ray := st.mach_ray
    kse_ray := st.kse_ray
    ese_ray := st.ese_ray }

/-- Positive-slope mask of the throat entry equation (`tee_positive_slope`):
numpy gradient of tee against pte, kept where the slope is at least zero.
`none` models the ValueError numpy raises for traces shorter than two. -/
def tee_positive_slope (pte_ray tee_ray : List ℚ) : Option (List Bool) :=
  (np_gradient tee_ray pte_ray).map (fun g => g.map (fun d => decide (0 ≤ d)))

/-- Zero crossing of the throat entry equation (`tee_zero`): interpolate
pressure, density and velocity at tee = 0 over the positive-slope-masked
arrays read in reverse (`np.flip`). -/
def tee_zero (pte_ray rho_ray vte_ray tee_ray : List ℚ) : Option (ℚ × ℚ × ℚ) :=
  (tee_positive_slope pte_ray tee_ray).map (fun mask =>
    (npInterp 0 (maskFilter mask tee_ray).reverse (maskFilter mask pte_ray).reverse,
     npInterp 0 (maskFilter mask tee_ray).reverse (maskFilter mask rho_ray).reverse,
     npInterp 0 (maskFilter mask tee_ray).reverse (maskFilter mask vte_ray).reverse))

/-- Secant update for the suction pressure (`psu_secant`).  The Python
division raises ZeroDivisionError when the two objective values are equal;
that unguarded failure is modelled as `none`. -/
def psu_secant (psu1 psu2 dete1 dete2 : ℚ) : Option ℚ :=
  if dete1 - dete2 = 0 then none
  else some (psu2 - dete2 * (psu1 - psu2) / (dete1 - dete2))

/-- The secant while-loop of `tee_minimize` (lines 321-329).  State: the two
latest suction-pressure guesses, their objective values, the `tee_last`
result of the latest guess (`none` until the body has run once, mirroring
the Python local variables that are unbound until then), and the iteration
counter n.  The remaining-iteration count starts at 10, so the branch taken
when it reaches zero is exactly the Python `if n == 10: break` with its
non-convergence warning, recorded in the Bool of the result.  `none` models
an uncaught exception (the secant division by zero, or reading the unbound
trace variables). -/
def teeMinLoop (spc : SinglePhase) (mp : MixProps) (ipr : InFlow)
    (tsu ken ate : ℚ) :
    ℕ → ℚ → ℚ → ℚ → ℚ → Option TeeResult → ℕ →
    Option (ℚ × ℚ × TeeResult × ℕ × Bool)
  | 0, _, _, _, _, _, _ => none
  | rem + 1, psuP, psuC, teeP, teeC, rOpt, n =>
      if 5 < |psuP - psuC| then
        match psu_secant psuP psuC teeP teeC with
        | none => none
        | some psuN =>
            let r := tee_last spc mp ipr psuN tsu ken ate
            if rem = 0 then some (psuC, psuN, r, n + 1, true)
            else teeMinLoop spc mp ipr tsu ken ate rem psuC psuN teeC r.tee_fin
              (some r) (n + 1)
      else
        match rOpt with
        | none => none
        | some r => some (psuP, psuC, r, n, false)

/-- Suction pressure minimizer (`tee_minimize`, lines 291-331): seed the
secant iteration at reservoir pressure minus 300 and minus 400 psi, loop
until successive guesses differ by at most 5 psi or 10 iterations have run,
then resolve the throat-entry state by `tee_zero` on the latest trace.
Returns the Python 5-tuple; `none` models an uncaught exception along the
way. -/
def tee_minimize (spc : SinglePhase) (mp : MixProps) (ipr : InFlow)
    (tsu ken ate : ℚ) : Option (ℚ × ℚ × ℚ × ℚ × ℚ) :=
  let psu1 := ipr.pres - 300
  let psu2 := ipr.pres - 400
  let tee1 := (tee_last spc mp ipr psu1 tsu ken ate).tee_fin
  let tee2 := (tee_last spc mp ipr psu2 tsu ken ate).tee_fin
  match teeMinLoop spc mp ipr tsu ken ate 10 psu1 psu2 tee1 tee2 none 0 with
  | none => none
  | some (_, psuC, r, _, _) =>
      match tee_zero r.pte_ray r.rho_ray r.vte_ray r.tee_ray with
      | none => none
      | some (pte, rho_te, vte) => some (psuC, r.qoil_std, pte, rho_te, vte)

/-- Radicand of `nozzle_velocity`, an exact rational. -/
def nozzle_velocity_arg (pni pte knz rho_nz : ℚ) : ℚ :=
  2 * 32.174 * 144 * (pni - pte) / (rho_nz * (1 + knz))

/-- Nozzle velocity (`nozzle_velocity`): Bernoulli velocity through the
nozzle.  `math.sqrt` raises a domain error on a negative argument, modelled
as `none`; otherwise the real square root of the rational radicand (the one
irrational value of the development, hence noncomputable). -/
noncomputable def nozzle_velocity (pni pte knz rho_nz : ℚ) : Option ℝ :=
  if nozzle_velocity_arg pni pte knz rho_nz < 0 then none
  else some (Real.sqrt ((nozzle_velocity_arg pni pte knz rho_nz : ℚ) : ℝ))

/-- Throat inlet momentum (`throat_inlet_momentum`): nozzle and throat-entry
momentum through the `singlephase` collaborator. -/
def throat_inlet_momentum (spc : SinglePhase)
    (vnz anz rho_nz vte ate rho_te : ℚ) : ℚ × ℚ :=
  (spc.momentum rho_nz vnz anz, spc.momentum rho_te vte ate)

/-- Throat outlet momentum (`throat_outlet_momentum`): mixture momentum and
the half-weighted friction momentum. -/
def throat_outlet_momentum (spc : SinglePhase) (kth vtm ath rho_tm : ℚ) : ℚ × ℚ :=
  let mom_tm := spc.momentum rho_tm vtm ath
  (mom_tm, 1 / 2 * kth * mom_tm)

/-- One discharge-pressure estimate of `throat_discharge` from the mixture
density conditioned at pressure p: recompute mixture velocity, outlet and
friction momentum, convert the net momentum to a pressure drop and subtract
it from the throat entry pressure. -/
def throatEstimate (spc : SinglePhase) (mp : MixProps)
    (pte tte kth mom_nz mom_te mtm ath : ℚ) (p : ℚ) : ℚ :=
  let rho_tm := mp.rho_mix p tte
  let vtm := spc.velocity (mtm / rho_tm) ath
  let mm := throat_outlet_momentum spc kth vtm ath rho_tm
  let mom_tot := mm.2 + mm.1 - mom_nz - mom_te
  pte - spc.mom_to_psi mom_tot ath

/-- Result of the `throat_discharge` fixed-point loop: the two latest
estimates (the Python function returns `cur`, the last element of
`ptm_list`), the number of iterations run and whether the 10-iteration cap
was hit (the non-convergence warning). -/
structure ThroatResult where
  prev : ℚ
  cur : ℚ
  iters : ℕ
  warned : Bool

/-- The while-loop of `throat_discharge` (lines 471-485): iterate the
estimate while the two latest estimates differ by more than 5 psi; the
remaining-iteration count starts at 10 so the zero branch is the Python
`if n == 10: break` with its warning. -/
def throatLoop (f : ℚ → ℚ) : ℕ → ℚ → ℚ → ℕ → ThroatResult
  | 0, prev, cur, n => ⟨prev, cur, n, false⟩
  | rem + 1, prev, cur, n =>
      if 5 < |prev - cur| then
        let nxt := f cur
        if rem = 0 then ⟨cur, nxt, n + 1, true⟩
        else throatLoop f rem cur nxt (n + 1)
      else ⟨prev, cur, n, false⟩

/-- Throat discharge pressure (`throat_discharge`, lines 418-487): fix the
inlet momenta and mass flows, seed the estimate at the throat entry
pressure, and iterate the discharge-pressure estimate to convergence within
5 psi or 10 iterations. -/
def throat_discharge (spc : SinglePhase) (mp : MixProps)
    (pte tte kth vnz anz rho_nz vte ate rho_te : ℚ) : ThroatResult :=
  let inlet := throat_inlet_momentum spc vnz anz rho_nz vte ate rho_te
  let mnz := spc.massflow rho_nz vnz anz
  let mte := spc.massflow rho_te vte ate
  let ath := anz + ate
  let mtm := mnz + mte
  let f := throatEstimate spc mp pte tte kth inlet.1 inlet.2 mtm ath
  throatLoop f 10 pte (f pte) 0

/-- Diffuser kinetic energy (`diffuser_ke`). -/
def diffuser_ke (kdi vtm vdi : ℚ) : ℚ := (vdi ^ 2 - (1 - kdi) * vtm ^ 2) / 2

/-- The parallel arrays grown by the stepped diffuser search of
`diffuser_discharge` (lines 555-579). -/
structure DiffState where
  pdi_ray : List ℚ
  vdi_ray : List ℚ
  rho_ray : List ℚ
  kse_ray : List ℚ
  ese_ray : List ℚ
  dte_ray : List ℚ

/-- One iteration of the while-loop body of `diffuser_discharge`: step
pressure up by 100 psi, recondition the mixture, recompute the diffuser
velocity and kinetic energy, accumulate the trapezoidal expansion-energy
increment and append every array. -/
def diffStep (spc : SinglePhase) (mp : MixProps) (ttm kdi adi qoil vtm : ℚ)
    (st : DiffState) : DiffState :=
  let pdi := lastD st.pdi_ray + 100
  let qt := mp.qtot pdi ttm qoil
  let vdi := spc.velocity qt adi
  let rho := mp.rho_mix pdi ttm
  let kse := diffuser_ke kdi vtm vdi
  let ese := lastD st.ese_ray +
    incremental_ee [lastD st.pdi_ray, pdi] [lastD st.rho_ray, rho]
  { pdi_ray := st.pdi_ray ++ [pdi]
    vdi_ray := st.vdi_ray ++ [vdi]
    rho_ray := st.rho_ray ++ [rho]
    kse_ray := st.kse_ray ++ [kse]
    ese_ray := st.ese_ray ++ [ese]
    dte_ray := st.dte_ray ++ [kse + ese] }

/-- The while-loop of `diffuser_discharge` (lines 566-584): iterate while
the terminal diffuser energy is negative; the remaining-iteration count
starts at 15 so the zero branch is the Python `if n == 15: break` with its
warning, recorded in the Bool. -/
def diffLoop (spc : SinglePhase) (mp : MixProps) (ttm kdi adi qoil vtm : ℚ) :
    ℕ → DiffState → DiffState × Bool
  | 0, st => (st, false)
  | rem + 1, st =>
      if lastD st.dte_ray < 0 then
        let st2 := diffStep spc mp ttm kdi adi qoil vtm st
        if rem = 0 then (st2, true)
        else diffLoop spc mp ttm kdi adi qoil vtm rem st2
      else (st, false)

/-- Return bundle of `diffuser_discharge`: the Python function returns
(vtm, pdi); the arrays are the loop's internal state, kept for the
theorems. -/
structure DiffResult where
  vtm : ℚ
  pdi : ℚ
  pdi_ray : List ℚ
  vdi_ray : List ℚ
  rho_ray : List ℚ
  kse_ray : List ℚ
  ese_ray : List ℚ
  dte_ray : List ℚ
  warned : Bool

/-- Diffuser discharge pressure (`diffuser_discharge`, lines 528-588):
build the trace starting at the throat-mixture pressure, stepping 100 psi
up while the diffuser total energy is negative (cap 15), then interpolate
the discharge pressure where the energy crosses zero over the whole trace. -/
def diffuser_discharge (spc : SinglePhase) (mp : MixProps)
    (ptm ttm kdi ath adi qoil : ℚ) : DiffResult :=
  let qtot0 := mp.qtot ptm ttm qoil
  let vtm := spc.velocity qtot0 ath
  let vdi0 := spc.velocity qtot0 adi
  let kse0 := diffuser_ke kdi vtm vdi0
  let st0 : DiffState :=
    { pdi_ray := [ptm]
      vdi_ray := [vdi0]
      rho_ray := [mp.rho_mix ptm ttm]
      kse_ray := [kse0]
      ese_ray := [0]
      dte_ray := [kse0 + 0] }
  let res := diffLoop spc mp ttm kdi adi qoil vtm 15 st0
  let st := res.1
  { vtm := vtm
    pdi := npInterp 0 st.dte_ray st.pdi_ray
    pdi_ray := st.pdi_ray
    vdi_ray := st.vdi_ray
    rho_ray := st.rho_ray
    kse_ray := st.kse_ray
    ese_ray := st.ese_ray
    dte_ray := st.dte_ray
    warned := res.2 }

/-- Modelled from the spec: the repository's `jetpump_overall` (called by
`system_residual` in `src/flow/jetcheck.py` line 212 but itself not among
the staged source files).  Per the spec it composes the throat-entry state,
nozzle rate, watercut mixing, throat discharge and diffuser discharge
forward from a trial suction pressure, and per its call sites it returns
the throat entry pressure, throat mixture pressure, diffuser discharge
pressure, standard oil rate and the mixed fluid-property object.  Only that
contract is needed here, so the function is an abstract parameter with this
return bundle; `M` is the opaque type of the mixed fluid-property object
(`ResMix`). -/
structure JetPumpResult (M : Type) where
  pte : ℚ
  ptm : ℚ
  pdi : ℚ
  qoil_std : ℚ
  prop_tm : M

/-- Return bundle of the external outflow traverse `top_down_press`:
measured-depth segments, the pressure profile and the holdup profile. -/
structure OutflowResult where
  md_seg : List ℚ
  prs_ray : List ℚ
  slh_ray : List ℚ

/-- System residual (`system_residual`, lines 177-232 of
`src/flow/jetcheck.py`): the nozzle inlet pressure is the surface power
fluid pressure plus the static head at the pump's vertical depth; the jet
pump model is evaluated there, the external outflow traverse is run at the
resulting oil rate and mixture, and the residual is the jet pump discharge
pressure minus the terminal (bottom) element of the traverse's pressure
profile.  `jpo` is the jet-pump model (`jetpump_overall`), `tdp` the
outflow traverse and `dps` the static-head collaborator
(`sp.diff_press_static`); `W` and `V` are the opaque wellbore pipe and well
profile objects, `vd` the profile's `jetpump_vd`, `inn_area` the wellbore's
inner area. -/
def system_residual {M W V : Type}
    (jpo : ℚ → ℚ → ℚ → ℚ → ℚ → ℚ → ℚ → ℚ → ℚ → ℚ → ℚ → InFlow → JetPumpResult M)
    (tdp : ℚ → ℚ → ℚ → M → W → V → OutflowResult)
    (dps : ℚ → ℚ → ℚ)
    (wellbore : W) (wellprof : V) (vd inn_area : ℚ)
    (psu pwh tsu rho_pf ppf_surf ken knz kth kdi ath anz : ℚ)
    (ipr_su : InFlow) : ℚ :=
  let pni := ppf_surf + dps rho_pf vd
  let jp := jpo psu tsu pni rho_pf ken knz kth kdi ath anz inn_area ipr_su
  let outf := tdp pwh tsu jp.qoil_std jp.prop_tm wellbore wellprof
  jp.pdi - lastD outf.prs_ray

/-- Modelled from the spec: the `flow.singlephase` helpers (repository code
outside the staged sources).  The spec fixes velocity as volumetric flow
over area and momentum as density times velocity squared times area; mass
flow is density times velocity times area and the momentum-to-psi
conversion divides by area and the 144 * 32.174 unit factor. -/
def specSP : SinglePhase :=
  { velocity := fun q a => q / a
    momentum := fun rho v a => rho * v ^ 2 * a
    massflow := fun rho v a => rho * v * a
    mom_to_psi := fun mom a => mom / (144 * 32.174 * a)
    diff_press_static := fun rho h => rho * h / 144 }

/-- Fluid mixture whose conditioned properties do not depend on pressure or
temperature: constant density, constant sonic velocity, constant total
volumetric flow. -/
def constMix (rho c q : ℚ) : MixProps :=
  { rho_mix := fun _ _ => rho
    cmix := fun _ _ => c
    qtot := fun _ _ _ => q }

/-- Concrete collaborators for the three-sample trace used against C2: the
in-situ volumetric flow equals the pressure, so the velocity (and with it
the kinetic energy) changes from sample to sample. -/
def mixLinear : MixProps :=
  { rho_mix := fun _ _ => 1
    cmix := fun _ _ => 1000000
    qtot := fun p _ _ => p }

/-- Concrete inflow collaborator with reservoir pressure 1000 psig. -/
def iprK : InFlow := ⟨1000, fun _ => 7⟩

/-- Concrete single-phase collaborator for the C4 witness: the velocity
reads the volumetric flow directly. -/
def spId : SinglePhase :=
  { velocity := fun q _ => q
    momentum := fun rho v a => rho * v ^ 2 * a
    massflow := fun rho v a => rho * v * a
    mom_to_psi := fun mom a => mom / (144 * 32.174 * a)
    diff_press_static := fun rho h => rho * h / 144 }

/-- Concrete mixture for the C4 witness: the volumetric flow is 15 at
700 psig, 3 at 600 psig and 20 elsewhere, and the sonic velocity is tiny so
every trace is a single choked sample. -/
def mixSecant : MixProps :=
  { rho_mix := fun _ _ => 1
    cmix := fun _ _ => 1 / 1000
    qtot := fun p _ _ => if p = 700 then 15 else if p = 600 then 3 else 20 }

/-- Expected diffuser energy trace under constant collaborators: an
arithmetic progression starting at the initial kinetic energy K with the
constant expansion-energy increment d. -/
def dteList (K d : ℚ) (k : ℕ) : List ℚ :=
  (List.range (k + 1)).map (fun i : ℕ => K + (i : ℚ) * d)

/-- Expected diffuser pressure trace under constant collaborators: 100 psi
steps up from the throat-mixture pressure. -/
def pdiList (ptm : ℚ) (k : ℕ) : List ℚ :=
  (List.range (k + 1)).map (fun i : ℕ => ptm + (i : ℚ) * 100)

/-- Invariant of the throat-entry stepped search state: the arrays are
nonempty and aligned, the pressures start at the suction pressure and fall
in exact 50 psi steps, the first cumulative expansion energy is 0, every
total energy is its kinetic energy plus its cumulative expansion energy,
and every cumulative expansion energy is the previous one plus the
trapezoidal increment over the pair of samples. -/
def TeeInvariant (psu : ℚ) (st : TeeState) : Prop :=
  st.pte_ray ≠ [] ∧
  headQ st.pte_ray = psu ∧
  st.ese_ray ≠ [] ∧
  headQ st.ese_ray = 0 ∧
  List.Chain' (fun a b => b = a - 50) st.pte_ray ∧
  st.rho_ray.length = st.pte_ray.length ∧
  st.ese_ray.length = st.pte_ray.length ∧
  st.kse_ray.length = st.pte_ray.length ∧
  st.tee_ray.length = st.pte_ray.length ∧
  st.mach_ray.length = st.pte_ray.length ∧
  (∀ i, i < st.pte_ray.length →
    st.tee_ray.getD i 0 = st.kse_ray.getD i 0 + st.ese_ray.getD i 0) ∧
  (∀ i, i + 1 < st.pte_ray.length →
    st.ese_ray.getD (i + 1) 0 = st.ese_ray.getD i 0 +
      incremental_ee [st.pte_ray.getD i 0, st.pte_ray.getD (i + 1) 0]
        [st.rho_ray.getD i 0, st.rho_ray.getD (i + 1) 0])

/-! ### Helper lemmas: loop unfolding, list access, fuel -/

theorem teeLoop_unfold (spc : SinglePhase) (mp : MixProps) (tsu ken ate qoil : ℚ)
    (fuel : ℕ) (st : TeeState) (h : fuel ≠ 0) :
    teeLoop spc mp tsu ken ate qoil fuel st =
      if lastD st.mach_ray ≤ 1 ∧ 50 < lastD st.pte_ray then
        teeLoop spc mp tsu ken ate qoil (fuel - 1) (teeStep spc mp tsu ken ate qoil st)
      else st := by
  cases fuel with
  | zero => exact absurd rfl h
  | succ n => rfl

theorem diffLoop_unfold (spc : SinglePhase) (mp : MixProps) (ttm kdi adi qoil vtm : ℚ)
    (rem : ℕ) (st : DiffState) (h : rem ≠ 0) :
    diffLoop spc mp ttm kdi adi qoil vtm rem st =
      if lastD st.dte_ray < 0 then
        if rem - 1 = 0 then (diffStep spc mp ttm kdi adi qoil vtm st, true)
        else diffLoop spc mp ttm kdi adi qoil vtm (rem - 1)
          (diffStep spc mp ttm kdi adi qoil vtm st)
      else (st, false) := by
  cases rem with
  | zero => exact absurd rfl h
  | succ n => rfl

theorem throatLoop_unfold (f : ℚ → ℚ) (rem : ℕ) (prev cur : ℚ) (n : ℕ) (h : rem ≠ 0) :
    throatLoop f rem prev cur n =
      if 5 < |prev - cur| then
        if rem - 1 = 0 then ⟨cur, f cur, n + 1, true⟩
        else throatLoop f (rem - 1) cur (f cur) (n + 1)
      else ⟨prev, cur, n, false⟩ := by
  cases rem with
  | zero => exact absurd rfl h
  | succ n => rfl

theorem teeMinLoop_unfold (spc : SinglePhase) (mp : MixProps) (ipr : InFlow)
    (tsu ken ate : ℚ) (rem : ℕ) (psuP psuC teeP teeC : ℚ)
    (rOpt : Option TeeResult) (n : ℕ) (h : rem ≠ 0) :
    teeMinLoop spc mp ipr tsu ken ate rem psuP psuC teeP teeC rOpt n =
      if 5 < |psuP - psuC| then
        match psu_secant psuP psuC teeP teeC with
        | none => none
        | some psuN =>
            let r := tee_last spc mp ipr psuN tsu ken ate
            if rem - 1 = 0 then some (psuC, psuN, r, n + 1, true)
            else teeMinLoop spc mp ipr tsu ken ate (rem - 1) psuC psuN teeC r.tee_fin
              (some r) (n + 1)
      else
        match rOpt with
        | none => none
        | some r => some (psuP, psuC, r, n, false)
  := by
  cases rem with
  | zero => exact absurd rfl h
  | succ n => rfl

theorem lastD_concat (l : List ℚ) (x : ℚ) : lastD (l ++ [x]) = x := by
  simp [lastD]

theorem headQ_concat (l : List ℚ) (x : ℚ) (h : l ≠ []) :
    headQ (l ++ [x]) = headQ l := by
  cases l with
  | nil => exact absurd rfl h
  | cons a as => rfl

theorem lastD_eq_getD (l : List ℚ) (h : l ≠ []) : lastD l = l.getD (l.length - 1) 0 := by
  induction l with
  | nil => exact absurd rfl h
  | cons a as ih =>
      cases as with
      | nil => rfl
      | cons b bs =>
          have hne : (b :: bs) ≠ ([] : List ℚ) := by simp
          have : lastD (a :: b :: bs) = lastD (b :: bs) := by simp [lastD]
          rw [this, ih hne]
          simp

theorem getD_concat_lt (l : List ℚ) (x : ℚ) (i : ℕ) (h : i < l.length) :
    (l ++ [x]).getD i 0 = l.getD i 0 :=
  List.getD_append l [x] 0 i h

theorem getD_concat_len (l : List ℚ) (x : ℚ) :
    (l ++ [x]).getD l.length 0 = x := by
  rw [List.getD_append_right l [x] 0 l.length le_rfl]
  simp

theorem teeFuel_eq (psu : ℚ) (n : ℕ) (h1 : psu ≤ 50 * n) (h2 : 50 * ((n : ℚ) - 1) < psu) :
    teeFuel psu = n := by
  unfold teeFuel
  have : (⌈psu / 50⌉ : ℤ) = (n : ℤ) := by
    rw [Int.ceil_eq_iff]
    constructor
    · push_cast
      rw [lt_div_iff₀ (by norm_num : (0:ℚ) < 50)]
      linarith
    · push_cast
      rw [div_le_iff₀ (by norm_num : (0:ℚ) < 50)]
      linarith
  rw [this, Int.toNat_natCast]

theorem chain'_concat_of (R : ℚ → ℚ → Prop) (l : List ℚ) (x : ℚ)
    (hl : l.Chain' R) (hne : l ≠ []) (hx : R (lastD l) x) :
    (l ++ [x]).Chain' R := by
  rw [List.chain'_append]
  refine ⟨hl, List.chain'_singleton x, ?_⟩
  intro a ha y hy
  simp only [List.head?_cons, Option.mem_def, Option.some.injEq] at hy
  subst hy
  rw [List.getLast?_eq_getLast l hne, Option.mem_def, Option.some.injEq] at ha
  subst ha
  have : lastD l = l.getLast hne := by
    rw [lastD, List.getLastD_eq_getLast?, List.getLast?_eq_getLast l hne]
    rfl
  rw [this] at hx
  exact hx

theorem teeLoop_inv (spc : SinglePhase) (mp : MixProps) (tsu ken ate qoil : ℚ)
    (Q : TeeState → Prop)
    (hstep : ∀ st, lastD st.mach_ray ≤ 1 → 50 < lastD st.pte_ray → Q st →
      Q (teeStep spc mp tsu ken ate qoil st)) :
    ∀ (fuel : ℕ) (st : TeeState), Q st → Q (teeLoop spc mp tsu ken ate qoil fuel st) := by
  intro fuel
  induction fuel with
  | zero => intro st h; exact h
  | succ n ih =>
      intro st h
      rw [teeLoop]
      split
      · next hg => exact ih _ (hstep st hg.1 hg.2 h)
      · exact h

theorem teeStep_lastD_pte (spc : SinglePhase) (mp : MixProps) (tsu ken ate qoil : ℚ)
    (st : TeeState) :
    lastD (teeStep spc mp tsu ken ate qoil st).pte_ray = lastD st.pte_ray - 50 := by
  simp only [teeStep]
  exact lastD_concat _ _

theorem teeLoop_exit (spc : SinglePhase) (mp : MixProps) (tsu ken ate qoil : ℚ) :
    ∀ (fuel : ℕ) (st : TeeState), (⌈lastD st.pte_ray / 50⌉ : ℤ) ≤ fuel →
      ¬ (lastD (teeLoop spc mp tsu ken ate qoil fuel st).mach_ray ≤ 1 ∧
        50 < lastD (teeLoop spc mp tsu ken ate qoil fuel st).pte_ray) := by
  intro fuel
  induction fuel with
  | zero =>
      intro st hf
      rw [teeLoop]
      rintro ⟨-, h2⟩
      have h3 : (1 : ℚ) < lastD st.pte_ray / 50 := by
        rw [lt_div_iff₀ (by norm_num : (0:ℚ) < 50)]
        linarith
      have h4 : (1 : ℤ) < ⌈lastD st.pte_ray / 50⌉ := by
        rw [Int.lt_ceil]
        exact_mod_cast h3
      omega
  | succ n ih =>
      intro st hf
      rw [teeLoop]
      split
      · next hg =>
          apply ih
          rw [teeStep_lastD_pte]
          have : lastD st.pte_ray - 50 = 50 * (lastD st.pte_ray / 50 - 1) := by ring
          rw [this]
          have hceil : (⌈(lastD st.pte_ray - 50) / 50⌉ : ℤ) = ⌈lastD st.pte_ray / 50⌉ - 1 := by
            have : (lastD st.pte_ray - 50) / 50 = lastD st.pte_ray / 50 - 1 := by ring
            rw [this, Int.ceil_sub_one]
          have : 50 * (lastD st.pte_ray / 50 - 1) = (lastD st.pte_ray - 50) / 50 * 50 := by
            ring
          rw [show 50 * (lastD st.pte_ray / 50 - 1) = lastD st.pte_ray - 50 by ring]
          rw [show (lastD st.pte_ray - 50) / 50 = lastD st.pte_ray / 50 - 1 from by ring] at hceil ⊢
          omega
      · next hg => exact hg

theorem getD_concat_at (l : List ℚ) (x : ℚ) (i : ℕ) (h : i = l.length) :
    (l ++ [x]).getD i 0 = x := by
  subst h
  exact getD_concat_len l x

theorem getD_eq_lastD (l : List ℚ) (i : ℕ) (h : i + 1 = l.length) :
    l.getD i 0 = lastD l := by
  have hne : l ≠ [] := by
    cases l with
    | nil => simp at h
    | cons a as => simp
  rw [lastD_eq_getD l hne]
  congr 1
  omega

theorem teeStep_invariant (spc : SinglePhase) (mp : MixProps) (tsu ken ate qoil psu : ℚ)
    (st : TeeState) (h : TeeInvariant psu st) :
    TeeInvariant psu (teeStep spc mp tsu ken ate qoil st) := by
  obtain ⟨h1, h2, h3, h4, h5, h6, h7, h8, h9, h10, h11, h12⟩ := h
  simp only [TeeInvariant, teeStep]
  refine ⟨by simp, ?_, by simp, ?_, ?_, by simp [h6], by simp [h7], by simp [h8],
    by simp [h9], by simp [h10], ?_, ?_⟩
  · rw [headQ_concat _ _ h1]; exact h2
  · rw [headQ_concat _ _ h3]; exact h4
  · exact chain'_concat_of _ _ _ h5 h1 rfl
  · intro i hi
    simp only [List.length_append, List.length_singleton] at hi
    rcases Nat.lt_or_ge i st.pte_ray.length with hlt | hge
    · rw [getD_concat_lt _ _ _ (h9 ▸ hlt), getD_concat_lt _ _ _ (h8 ▸ hlt),
        getD_concat_lt _ _ _ (h7 ▸ hlt)]
      exact h11 i hlt
    · have hieq : i = st.pte_ray.length := by omega
      rw [getD_concat_at _ _ _ (by omega : i = st.tee_ray.length),
        getD_concat_at _ _ _ (by omega : i = st.kse_ray.length),
        getD_concat_at _ _ _ (by omega : i = st.ese_ray.length)]
  · intro i hi
    simp only [List.length_append, List.length_singleton] at hi
    rcases Nat.lt_or_ge (i + 1) st.pte_ray.length with hlt | hge
    · have hilt : i < st.pte_ray.length := by omega
      rw [getD_concat_lt _ _ _ (by omega : i + 1 < st.ese_ray.length),
        getD_concat_lt _ _ _ (by omega : i < st.ese_ray.length),
        getD_concat_lt _ _ _ hilt, getD_concat_lt _ _ _ hlt,
        getD_concat_lt _ _ _ (by omega : i < st.rho_ray.length),
        getD_concat_lt _ _ _ (by omega : i + 1 < st.rho_ray.length)]
      exact h12 i hlt
    · have hieq : i + 1 = st.pte_ray.length := by omega
      rw [getD_concat_at _ _ _ (by omega : i + 1 = st.ese_ray.length),
        getD_concat_at _ _ _ (by omega : i + 1 = st.pte_ray.length),
        getD_concat_at _ _ _ (by omega : i + 1 = st.rho_ray.length),
        getD_concat_lt _ _ _ (by omega : i < st.ese_ray.length),
        getD_concat_lt _ _ _ (by omega : i < st.pte_ray.length),
        getD_concat_lt _ _ _ (by omega : i < st.rho_ray.length),
        getD_eq_lastD _ _ (by omega : i + 1 = st.ese_ray.length),
        getD_eq_lastD _ _ (by omega : i + 1 = st.pte_ray.length),
        getD_eq_lastD _ _ (by omega : i + 1 = st.rho_ray.length)]

theorem tee_last_state (spc : SinglePhase) (mp : MixProps) (ipr : InFlow)
    (psu tsu ken ate : ℚ) (R : TeeResult)
    (hR : R = tee_last spc mp ipr psu tsu ken ate) :
    TeeInvariant psu ⟨R.pte_ray, R.vte_ray, R.rho_ray, R.mach_ray, R.kse_ray,
      R.ese_ray, R.tee_ray⟩ ∧
    ¬ (lastD R.mach_ray ≤ 1 ∧ 50 < lastD R.pte_ray) ∧
    (1 ≤ lastD R.mach_ray → R.tee_fin = npInterp 1 R.mach_ray R.tee_ray) ∧
    (¬ 1 ≤ lastD R.mach_ray → R.tee_fin = lastD R.tee_ray) ∧
    R.qoil_std = ipr.oil_flow psu := by
  subst hR
  simp only [tee_last]
  have hinv := teeLoop_inv spc mp tsu ken ate (ipr.oil_flow psu) (TeeInvariant psu)
    (fun st _ _ h => teeStep_invariant spc mp tsu ken ate (ipr.oil_flow psu) psu st h)
    (teeFuel psu)
    ⟨[psu], [spc.velocity (mp.qtot psu tsu (ipr.oil_flow psu)) ate],
      [mp.rho_mix psu tsu],
      [spc.velocity (mp.qtot psu tsu (ipr.oil_flow psu)) ate / mp.cmix psu tsu],
      [enterance_ke ken (spc.velocity (mp.qtot psu tsu (ipr.oil_flow psu)) ate)],
      [0],
      [enterance_ke ken (spc.velocity (mp.qtot psu tsu (ipr.oil_flow psu)) ate) + 0]⟩
    (by
      simp only [TeeInvariant]
      refine ⟨by simp, rfl, by simp, rfl, by simp, rfl, rfl, rfl, rfl, rfl, ?_, ?_⟩
      · intro i hi
        simp only [List.length_singleton] at hi
        have hz : i = 0 := by omega
        subst hz
        rfl
      · intro i hi
        simp only [List.length_singleton] at hi
        omega)
  have hexit := teeLoop_exit spc mp tsu ken ate (ipr.oil_flow psu) (teeFuel psu)
    ⟨[psu], [spc.velocity (mp.qtot psu tsu (ipr.oil_flow psu)) ate],
      [mp.rho_mix psu tsu],
      [spc.velocity (mp.qtot psu tsu (ipr.oil_flow psu)) ate / mp.cmix psu tsu],
      [enterance_ke ken (spc.velocity (mp.qtot psu tsu (ipr.oil_flow psu)) ate)],
      [0],
      [enterance_ke ken (spc.velocity (mp.qtot psu tsu (ipr.oil_flow psu)) ate) + 0]⟩
    (by
      show (⌈lastD [psu] / 50⌉ : ℤ) ≤ (teeFuel psu : ℤ)
      have : lastD [psu] = psu := rfl
      rw [this, teeFuel]
      exact Int.self_le_toNat _)
  refine ⟨hinv, hexit, ?_, ?_, trivial⟩
  · intro h
    simp only [if_pos h]
  · intro h
    simp only [if_neg h]

theorem tee_last_pos (spc : SinglePhase) (mp : MixProps) (ipr : InFlow)
    (psu tsu ken ate : ℚ) (hpsu : 50 < psu) :
    ∀ p ∈ (tee_last spc mp ipr psu tsu ken ate).pte_ray, 0 < p := by
  simp only [tee_last]
  refine teeLoop_inv spc mp tsu ken ate (ipr.oil_flow psu)
    (fun st => ∀ p ∈ st.pte_ray, 0 < p) ?_ (teeFuel psu) _ ?_
  · intro st _ hp hq
    simp only [teeStep]
    intro p hmem
    rcases List.mem_append.mp hmem with hin | hnew
    · exact hq p hin
    · simp only [List.mem_singleton] at hnew
      subst hnew
      linarith
  · intro p hmem
    simp only [List.mem_singleton] at hmem
    subst hmem
    linarith

theorem diffLoop_inv (spc : SinglePhase) (mp : MixProps) (ttm kdi adi qoil vtm : ℚ)
    (Q : DiffState → Prop)
    (hstep : ∀ st, lastD st.dte_ray < 0 → Q st →
      Q (diffStep spc mp ttm kdi adi qoil vtm st)) :
    ∀ (rem : ℕ) (st : DiffState), Q st →
      Q (diffLoop spc mp ttm kdi adi qoil vtm rem st).1 := by
  intro rem
  induction rem with
  | zero => intro st h; exact h
  | succ n ih =>
      intro st h
      rw [diffLoop]
      split
      · next hg =>
          split
          · exact hstep st hg h
          · exact ih _ (hstep st hg h)
      · exact h

theorem diffuser_discharge_state (spc : SinglePhase) (mp : MixProps)
    (ptm ttm kdi ath adi qoil : ℚ) (D : DiffResult)
    (hD : D = diffuser_discharge spc mp ptm ttm kdi ath adi qoil) :
    D.pdi_ray ≠ [] ∧
    headQ D.pdi_ray = ptm ∧
    D.ese_ray ≠ [] ∧
    headQ D.ese_ray = 0 ∧
    List.Chain' (fun a b => b = a + 100) D.pdi_ray ∧
    D.pdi = npInterp 0 D.dte_ray D.pdi_ray := by
  subst hD
  simp only [diffuser_discharge]
  have key := diffLoop_inv spc mp ttm kdi adi qoil
    (spc.velocity (mp.qtot ptm ttm qoil) ath)
    (fun st => st.pdi_ray ≠ [] ∧ headQ st.pdi_ray = ptm ∧ st.ese_ray ≠ [] ∧
      headQ st.ese_ray = 0 ∧ List.Chain' (fun a b => b = a + 100) st.pdi_ray)
    (fun st _ h => by
      obtain ⟨h1, h2, h3, h4, h5⟩ := h
      simp only [diffStep]
      exact ⟨by simp, by rw [headQ_concat _ _ h1]; exact h2, by simp,
        by rw [headQ_concat _ _ h3]; exact h4, chain'_concat_of _ _ _ h5 h1 rfl⟩)
    15
    ⟨[ptm], [spc.velocity (mp.qtot ptm ttm qoil) adi], [mp.rho_mix ptm ttm],
      [diffuser_ke kdi (spc.velocity (mp.qtot ptm ttm qoil) ath)
        (spc.velocity (mp.qtot ptm ttm qoil) adi)], [0],
      [diffuser_ke kdi (spc.velocity (mp.qtot ptm ttm qoil) ath)
        (spc.velocity (mp.qtot ptm ttm qoil) adi) + 0]⟩
    ⟨by simp, rfl, by simp, rfl, by simp⟩
  exact ⟨key.1, key.2.1, key.2.2.1, key.2.2.2.1, key.2.2.2.2, trivial⟩

/-! ### Claim theorems -/

/-- C1: for every suction pressure psu above 50 and all total collaborator
functions, the throat-entry stepped search `tee_last` starts its trace at
psu and decrements by exactly 50 psi per appended sample, loops only while
the terminal mach number is at most 1 and the terminal pressure is above
50 (so all trace pressures stay positive), and on exit returns the energy
interpolated at mach = 1 when the terminal mach reached 1, and the terminal
energy value otherwise, without raising an error. -/
theorem tee_last_stepped_search_spec (spc : SinglePhase) (mp : MixProps)
    (ipr : InFlow) (psu tsu ken ate : ℚ) (R : TeeResult)
    (hR : R = tee_last spc mp ipr psu tsu ken ate) (hpsu : 50 < psu) :
    (∀ p ∈ R.pte_ray, 0 < p) ∧
    headQ R.pte_ray = psu ∧
    List.Chain' (fun a b => b = a - 50) R.pte_ray ∧
    (1 < lastD R.mach_ray ∨ lastD R.pte_ray ≤ 50) ∧
    (1 ≤ lastD R.mach_ray → R.tee_fin = npInterp 1 R.mach_ray R.tee_ray) ∧
    (lastD R.mach_ray < 1 → R.tee_fin = lastD R.tee_ray) := by
  obtain ⟨hinv, hexit, hfin1, hfin2, hq⟩ :=
    tee_last_state spc mp ipr psu tsu ken ate R hR
  obtain ⟨h1, h2, h3, h4, h5, hrest⟩ := hinv
  refine ⟨by rw [hR]; exact tee_last_pos spc mp ipr psu tsu ken ate hpsu,
    h2, h5, ?_, hfin1, fun h => hfin2 (not_le.mpr h)⟩
  rcases not_and_or.mp hexit with h | h
  · exact Or.inl (not_le.mp h)
  · exact Or.inr (not_lt.mp h)

/-- Witness for C1: the concrete constant-property collaborators, suction
pressure 120 psig (three samples 120, 70, 20). -/
theorem tee_last_stepped_search_spec_witness :
    (∀ p ∈ (tee_last specSP (constMix 1 1000000 2) iprK 120 100 0 1).pte_ray, 0 < p) ∧
    headQ (tee_last specSP (constMix 1 1000000 2) iprK 120 100 0 1).pte_ray = 120 ∧
    List.Chain' (fun a b => b = a - 50)
      (tee_last specSP (constMix 1 1000000 2) iprK 120 100 0 1).pte_ray ∧
    (1 < lastD (tee_last specSP (constMix 1 1000000 2) iprK 120 100 0 1).mach_ray ∨
      lastD (tee_last specSP (constMix 1 1000000 2) iprK 120 100 0 1).pte_ray ≤ 50) ∧
    (1 ≤ lastD (tee_last specSP (constMix 1 1000000 2) iprK 120 100 0 1).mach_ray →
      (tee_last specSP (constMix 1 1000000 2) iprK 120 100 0 1).tee_fin =
        npInterp 1 (tee_last specSP (constMix 1 1000000 2) iprK 120 100 0 1).mach_ray
          (tee_last specSP (constMix 1 1000000 2) iprK 120 100 0 1).tee_ray) ∧
    (lastD (tee_last specSP (constMix 1 1000000 2) iprK 120 100 0 1).mach_ray < 1 →
      (tee_last specSP (constMix 1 1000000 2) iprK 120 100 0 1).tee_fin =
        lastD (tee_last specSP (constMix 1 1000000 2) iprK 120 100 0 1).tee_ray) :=
  tee_last_stepped_search_spec specSP (constMix 1 1000000 2) iprK 120 100 0 1 _
    rfl (by norm_num)

/-- C9: the throat-entry search appends samples in strictly decreasing
pressure order (each new pressure is the previous minus 50 psi), the
diffuser search appends samples in strictly increasing pressure order
(each new pressure is the previous plus 100 psi), and in both traces the
first sample carries cumulative expansion energy 0. -/
theorem trace_pressure_ordering (spc spc2 : SinglePhase) (mp mp2 : MixProps)
    (ipr : InFlow) (psu tsu ken ate ptm ttm kdi ath adi qoil : ℚ) :
    (List.Chain' (fun a b => b = a - 50)
        (tee_last spc mp ipr psu tsu ken ate).pte_ray ∧
      List.Pairwise (fun a b => b < a)
        (tee_last spc mp ipr psu tsu ken ate).pte_ray ∧
      headQ (tee_last spc mp ipr psu tsu ken ate).ese_ray = 0) ∧
    (List.Chain' (fun a b => b = a + 100)
        (diffuser_discharge spc2 mp2 ptm ttm kdi ath adi qoil).pdi_ray ∧
      List.Pairwise (fun a b => a < b)
        (diffuser_discharge spc2 mp2 ptm ttm kdi ath adi qoil).pdi_ray ∧
      headQ (diffuser_discharge spc2 mp2 ptm ttm kdi ath adi qoil).ese_ray = 0) := by
  obtain ⟨hinv, -, -, -, -⟩ :=
    tee_last_state spc mp ipr psu tsu ken ate _ rfl
  obtain ⟨h1, h2, h3, h4, h5, hrest⟩ := hinv
  obtain ⟨d1, d2, d3, d4, d5, d6⟩ :=
    diffuser_discharge_state spc2 mp2 ptm ttm kdi ath adi qoil _ rfl
  refine ⟨⟨h5, ?_, h4⟩, ⟨d5, ?_, d4⟩⟩
  · have hlt : List.Chain' (fun a b : ℚ => b < a)
        (tee_last spc mp ipr psu tsu ken ate).pte_ray :=
      h5.imp (fun a b hab => by rw [hab]; linarith)
    exact List.chain'_iff_pairwise.mp hlt
  · have hlt : List.Chain' (fun a b : ℚ => a < b)
        (diffuser_discharge spc2 mp2 ptm ttm kdi ath adi qoil).pdi_ray :=
      d5.imp (fun a b hab => by rw [hab]; linarith)
    exact List.chain'_iff_pairwise.mp hlt

/-- C2 (amended): in every throat-entry trace the cumulative expansion
energy of each sample is the previous sample's value plus the trapezoidal
increment of 1 over density across the unit-converted pressure delta, and
each sample's total energy is its kinetic energy plus its cumulative
expansion energy; consequently for a 3-sample trace the difference of the
cumulative expansion energies (total energy minus kinetic energy, not the
total energy itself) telescopes to the sum of the two pairwise trapezoidal
increments. -/
theorem trace_energy_accumulation (spc : SinglePhase) (mp : MixProps)
    (ipr : InFlow) (psu tsu ken ate : ℚ) (R : TeeResult)
    (hR : R = tee_last spc mp ipr psu tsu ken ate) :
    R.rho_ray.length = R.pte_ray.length ∧
    R.ese_ray.length = R.pte_ray.length ∧
    R.kse_ray.length = R.pte_ray.length ∧
    R.tee_ray.length = R.pte_ray.length ∧
    (∀ i, i + 1 < R.pte_ray.length →
      R.ese_ray.getD (i + 1) 0 = R.ese_ray.getD i 0 +
        incremental_ee [R.pte_ray.getD i 0, R.pte_ray.getD (i + 1) 0]
          [R.rho_ray.getD i 0, R.rho_ray.getD (i + 1) 0]) ∧
    (∀ i, i < R.pte_ray.length →
      R.tee_ray.getD i 0 = R.kse_ray.getD i 0 + R.ese_ray.getD i 0) ∧
    (R.pte_ray.length = 3 →
      (R.tee_ray.getD 2 0 - R.kse_ray.getD 2 0) -
          (R.tee_ray.getD 0 0 - R.kse_ray.getD 0 0) =
        incremental_ee (R.pte_ray.take 2) (R.rho_ray.take 2) +
          incremental_ee (R.pte_ray.drop 1) (R.rho_ray.drop 1)) := by
  obtain ⟨hinv, -, -, -, -⟩ := tee_last_state spc mp ipr psu tsu ken ate R hR
  obtain ⟨h1, h2, h3, h4, h5, h6, h7, h8, h9, h10, h11, h12⟩ := hinv
  refine ⟨h6, h7, h8, h9, h12, h11, ?_⟩
  intro hlen3
  have e1 := h12 0 (by simp [hlen3])
  have e2 := h12 1 (by simp [hlen3])
  have t0 := h11 0 (by simp [hlen3])
  have t2 := h11 2 (by simp [hlen3])
  have hr3 : R.rho_ray.length = 3 := by
    have := h6; simpa [hlen3] using this
  obtain ⟨a, b, c, hp⟩ := List.length_eq_three.mp hlen3
  obtain ⟨d, e, f, hrho⟩ := List.length_eq_three.mp hr3
  simp only [hp, hrho, List.getD_cons_zero, List.getD_cons_succ,
    List.take_cons, List.drop] at e1 e2 t0 t2 ⊢
  simp only [List.take, List.drop] at *
  linarith [e1, e2, t0, t2]

/-- Witness for C2 at the concrete single-sample trace of suction pressure
0 with constant collaborators. -/
theorem trace_energy_accumulation_witness :
    (tee_last specSP (constMix 1 1 1) iprK 0 0 0 1).rho_ray.length =
      (tee_last specSP (constMix 1 1 1) iprK 0 0 0 1).pte_ray.length ∧
    (tee_last specSP (constMix 1 1 1) iprK 0 0 0 1).ese_ray.length =
      (tee_last specSP (constMix 1 1 1) iprK 0 0 0 1).pte_ray.length ∧
    (tee_last specSP (constMix 1 1 1) iprK 0 0 0 1).kse_ray.length =
      (tee_last specSP (constMix 1 1 1) iprK 0 0 0 1).pte_ray.length ∧
    (tee_last specSP (constMix 1 1 1) iprK 0 0 0 1).tee_ray.length =
      (tee_last specSP (constMix 1 1 1) iprK 0 0 0 1).pte_ray.length ∧
    (∀ i, i + 1 < (tee_last specSP (constMix 1 1 1) iprK 0 0 0 1).pte_ray.length →
      (tee_last specSP (constMix 1 1 1) iprK 0 0 0 1).ese_ray.getD (i + 1) 0 =
        (tee_last specSP (constMix 1 1 1) iprK 0 0 0 1).ese_ray.getD i 0 +
          incremental_ee
            [(tee_last specSP (constMix 1 1 1) iprK 0 0 0 1).pte_ray.getD i 0,
              (tee_last specSP (constMix 1 1 1) iprK 0 0 0 1).pte_ray.getD (i + 1) 0]
            [(tee_last specSP (constMix 1 1 1) iprK 0 0 0 1).rho_ray.getD i 0,
              (tee_last specSP (constMix 1 1 1) iprK 0 0 0 1).rho_ray.getD (i + 1) 0]) ∧
    (∀ i, i < (tee_last specSP (constMix 1 1 1) iprK 0 0 0 1).pte_ray.length →
      (tee_last specSP (constMix 1 1 1) iprK 0 0 0 1).tee_ray.getD i 0 =
        (tee_last specSP (constMix 1 1 1) iprK 0 0 0 1).kse_ray.getD i 0 +
          (tee_last specSP (constMix 1 1 1) iprK 0 0 0 1).ese_ray.getD i 0) ∧
    ((tee_last specSP (constMix 1 1 1) iprK 0 0 0 1).pte_ray.length = 3 →
      ((tee_last specSP (constMix 1 1 1) iprK 0 0 0 1).tee_ray.getD 2 0 -
          (tee_last specSP (constMix 1 1 1) iprK 0 0 0 1).kse_ray.getD 2 0) -
        ((tee_last specSP (constMix 1 1 1) iprK 0 0 0 1).tee_ray.getD 0 0 -
          (tee_last specSP (constMix 1 1 1) iprK 0 0 0 1).kse_ray.getD 0 0) =
        incremental_ee ((tee_last specSP (constMix 1 1 1) iprK 0 0 0 1).pte_ray.take 2)
            ((tee_last specSP (constMix 1 1 1) iprK 0 0 0 1).rho_ray.take 2) +
          incremental_ee ((tee_last specSP (constMix 1 1 1) iprK 0 0 0 1).pte_ray.drop 1)
            ((tee_last specSP (constMix 1 1 1) iprK 0 0 0 1).rho_ray.drop 1)) :=
  trace_energy_accumulation specSP (constMix 1 1 1) iprK 0 0 0 1 _ rfl

set_option maxHeartbeats 1000000 in
/-- C2 counterexample: a concrete three-sample trace (suction pressure 150,
in-situ flow equal to the pressure, so the kinetic energies of the first
and third samples differ) on which the difference of the total energies of
the third and first samples does not equal the sum of the two pairwise
trapezoidal increments. -/
theorem trace_energy_total_counterexample :
    (tee_last specSP mixLinear iprK 150 100 0 1).pte_ray.length = 3 ∧
    ¬ ((tee_last specSP mixLinear iprK 150 100 0 1).tee_ray.getD 2 0 -
        (tee_last specSP mixLinear iprK 150 100 0 1).tee_ray.getD 0 0 =
      incremental_ee ((tee_last specSP mixLinear iprK 150 100 0 1).pte_ray.take 2)
          ((tee_last specSP mixLinear iprK 150 100 0 1).rho_ray.take 2) +
        incremental_ee ((tee_last specSP mixLinear iprK 150 100 0 1).pte_ray.drop 1)
          ((tee_last specSP mixLinear iprK 150 100 0 1).rho_ray.drop 1)) := by
  have h : tee_last specSP mixLinear iprK 150 100 0 1 =
      ⟨-2310278/5, 7, [150, 100, 50], [1, 1, 1], [150, 100, 50],
        [11250, -1133264/5, -2310278/5], [3/20000, 1/10000, 1/20000],
        [11250, 5000, 1250], [0, -1158264/5, -2316528/5]⟩ := by
    simp only [tee_last, teeFuel_eq 150 3 (by norm_num) (by norm_num)]
    norm_num [teeLoop, teeStep, mixLinear, specSP, iprK, lastD,
      enterance_ke, incremental_ee, trapezoid]
  rw [h]
  refine ⟨rfl, ?_⟩
  norm_num [incremental_ee, trapezoid]

/-- C5: the secant update `psu_secant` divides by zero whenever the two
objective values are equal — the failure is reached for every such input —
and for unequal values it returns exactly the secant formula: no guard,
sentinel or bisection fallback exists in the update computation. -/
theorem psu_secant_division_by_zero :
    (∀ psu1 psu2 dete : ℚ, psu_secant psu1 psu2 dete dete = none) ∧
    (∀ psu1 psu2 dete1 dete2 : ℚ, dete1 ≠ dete2 →
      psu_secant psu1 psu2 dete1 dete2 =
        some (psu2 - dete2 * (psu1 - psu2) / (dete1 - dete2))) := by
  constructor
  · intro p1 p2 d
    simp [psu_secant]
  · intro p1 p2 d1 d2 h
    simp [psu_secant, sub_eq_zero, h]

/-- C10: the nozzle velocity is defined exactly when the nozzle inlet
pressure is at least the throat entry pressure (for positive nozzle fluid
density and nozzle friction above -1): below it the square-root argument is
negative and the call fails with a domain error, and on the domain the error
branch is unreachable and the result is the square root of
2 * 32.174 * 144 * (pni - pte) / (rho_nz * (1 + knz)). -/
theorem nozzle_velocity_domain (pni pte knz rho_nz : ℚ)
    (hrho : 0 < rho_nz) (hknz : -1 < knz) :
    (pni < pte → nozzle_velocity pni pte knz rho_nz = none) ∧
    (pte ≤ pni → nozzle_velocity pni pte knz rho_nz =
      some (Real.sqrt ((2 * 32.174 * 144 * (pni - pte) / (rho_nz * (1 + knz)) : ℚ) : ℝ))) := by
  have hden : 0 < rho_nz * (1 + knz) := mul_pos hrho (by linarith)
  constructor
  · intro h
    rw [nozzle_velocity, if_pos]
    rw [nozzle_velocity_arg]
    apply div_neg_of_neg_of_pos _ hden
    apply mul_neg_of_pos_of_neg (by norm_num)
    linarith
  · intro h
    rw [nozzle_velocity, if_neg]
    · rfl
    · rw [nozzle_velocity_arg, not_lt]
      apply div_nonneg _ hden.le
      apply mul_nonneg (by norm_num)
      linarith

/-- Witness for C10 at pni = 100, pte = 50, knz = 0, rho_nz = 50. -/
theorem nozzle_velocity_domain_witness :
    (((100 : ℚ) < 50) → nozzle_velocity 100 50 0 50 = none) ∧
    (((50 : ℚ) ≤ 100) → nozzle_velocity 100 50 0 50 =
      some (Real.sqrt ((2 * 32.174 * 144 * ((100 : ℚ) - 50) / (50 * (1 + 0)) : ℚ) : ℝ))) :=
  nozzle_velocity_domain 100 50 0 50 (by norm_num) (by norm_num)

theorem lastD_cons_cons (a b : ℚ) (l : List ℚ) :
    lastD (a :: b :: l) = lastD (b :: l) := by
  simp [lastD]

theorem npInterp_left (x : ℚ) (xp fp : List ℚ) (hlen : xp.length = fp.length)
    (hne : xp ≠ []) (hx : x ≤ headQ xp) : npInterp x xp fp = headQ fp := by
  match xp, fp with
  | [], _ => exact absurd rfl hne
  | [x0], [] => simp at hlen
  | [x0], f0 :: fs =>
      cases fs with
      | nil => rfl
      | cons f1 fs' => simp at hlen
  | x0 :: x1 :: xs, [] => simp at hlen
  | x0 :: x1 :: xs, [f0] => simp at hlen
  | x0 :: x1 :: xs, f0 :: f1 :: fs =>
      rw [npInterp, if_pos (show x ≤ x0 from hx)]
      rfl

theorem npInterp_right (x : ℚ) : ∀ (xp fp : List ℚ), xp.length = fp.length →
    xp ≠ [] → (∀ t ∈ xp, t < x) → npInterp x xp fp = lastD fp := by
  intro xp
  induction xp with
  | nil => intro fp _ hne _; exact absurd rfl hne
  | cons x0 xs ih =>
      intro fp hlen _ hall
      cases xs with
      | nil =>
          match fp with
          | [f0] => rfl
          | [] => simp at hlen
          | f0 :: f1 :: fs => simp at hlen
      | cons x1 xs' =>
          match fp with
          | [] => simp at hlen
          | [f0] => simp at hlen
          | f0 :: f1 :: fs =>
              rw [npInterp, if_neg, if_neg]
              · rw [ih (f1 :: fs) (by simpa using hlen) (by simp)
                  (fun t ht => hall t (List.mem_cons_of_mem x0 ht))]
                rw [lastD_cons_cons]
              · exact not_le.mpr (hall x1 (by simp))
              · exact not_le.mpr (hall x0 (by simp))

theorem npInterp_bracket (x : ℚ) : ∀ (i : ℕ) (xp fp : List ℚ),
    xp.length = fp.length → i + 1 < xp.length →
    (∀ j, j ≤ i → xp.getD j 0 < x) → x ≤ xp.getD (i + 1) 0 →
    npInterp x xp fp = fp.getD i 0 +
      (x - xp.getD i 0) * (fp.getD (i + 1) 0 - fp.getD i 0) /
        (xp.getD (i + 1) 0 - xp.getD i 0) := by
  intro i
  induction i with
  | zero =>
      intro xp fp hlen hi hbelow habove
      match xp, fp with
      | [], _ => simp at hi
      | [x0], _ => simp at hi
      | x0 :: x1 :: xs, [] => simp at hlen
      | x0 :: x1 :: xs, [f0] => simp at hlen
      | x0 :: x1 :: xs, f0 :: f1 :: fs =>
          rw [npInterp, if_neg (not_le.mpr (show x0 < x from hbelow 0 le_rfl)),
            if_pos (show x ≤ x1 from habove)]
          simp [List.getD_cons_zero, List.getD_cons_succ]
  | succ i' ih =>
      intro xp fp hlen hi hbelow habove
      match xp, fp with
      | [], _ => simp at hi
      | [x0], _ => simp at hi
      | x0 :: x1 :: xs, [] => simp at hlen
      | x0 :: x1 :: xs, [f0] => simp at hlen
      | x0 :: x1 :: xs, f0 :: f1 :: fs =>
          rw [npInterp, if_neg (not_le.mpr (show x0 < x from hbelow 0 (by omega))),
            if_neg (not_le.mpr (show x1 < x from hbelow 1 (by omega)))]
          rw [ih (x1 :: xs) (f1 :: fs) (by simpa using hlen) (by simpa using hi)
            (fun j hj => show (x1 :: xs).getD j 0 < x from hbelow (j + 1) (by omega))
            (show x ≤ (x1 :: xs).getD (i' + 1) 0 from habove)]
          simp [List.getD_cons_succ]

theorem maskFilter_cons (b : Bool) (bs : List Bool) (a : ℚ) (as : List ℚ) :
    maskFilter (b :: bs) (a :: as) =
      if b then a :: maskFilter bs as else maskFilter bs as := by
  cases b <;> simp [maskFilter]

theorem maskFilter_length_eq (mask : List Bool) : ∀ (l1 l2 : List ℚ),
    l1.length = l2.length →
    (maskFilter mask l1).length = (maskFilter mask l2).length := by
  induction mask with
  | nil => intro l1 l2 _; simp [maskFilter]
  | cons b bs ih =>
      intro l1 l2 h
      cases l1 with
      | nil =>
          cases l2 with
          | nil => rfl
          | cons c cs => simp at h
      | cons a as =>
          cases l2 with
          | nil => simp at h
          | cons c cs =>
              rw [maskFilter_cons, maskFilter_cons]
              have := ih as cs (by simpa using h)
              cases b <;> simp [this]

theorem headQ_mem (l : List ℚ) (h : l ≠ []) : headQ l ∈ l := by
  cases l with
  | nil => exact absurd rfl h
  | cons a as => simp [headQ]

/-- C3 (amended): whenever the positive-slope mask exists (the trace has at
least two samples), `tee_zero` returns a value and never fails: it returns
the triple of `np.interp` lookups at tee = 0 over the reversed masked
arrays.  When the masked energies have no sign change (all positive), the
returned values are the endpoint-substituted values of the lowest-energy
masked sample rather than an error; when consecutive reversed masked
samples bracket zero, the returned values are the exact linear
interpolations at tee = 0. -/
theorem tee_zero_behavior (pte_ray rho_ray vte_ray tee_ray : List ℚ)
    (mask : List Bool)
    (hmask : tee_positive_slope pte_ray tee_ray = some mask)
    (hlp : pte_ray.length = tee_ray.length)
    (hlr : rho_ray.length = tee_ray.length)
    (hlv : vte_ray.length = tee_ray.length) :
    tee_zero pte_ray rho_ray vte_ray tee_ray =
      some (npInterp 0 (maskFilter mask tee_ray).reverse (maskFilter mask pte_ray).reverse,
        npInterp 0 (maskFilter mask tee_ray).reverse (maskFilter mask rho_ray).reverse,
        npInterp 0 (maskFilter mask tee_ray).reverse (maskFilter mask vte_ray).reverse) ∧
    (maskFilter mask tee_ray ≠ [] →
      (∀ t ∈ maskFilter mask tee_ray, 0 < t) →
      tee_zero pte_ray rho_ray vte_ray tee_ray =
        some (headQ (maskFilter mask pte_ray).reverse,
          headQ (maskFilter mask rho_ray).reverse,
          headQ (maskFilter mask vte_ray).reverse)) ∧
    (∀ i, i + 1 < (maskFilter mask tee_ray).reverse.length →
      (∀ j, j ≤ i → (maskFilter mask tee_ray).reverse.getD j 0 < 0) →
      0 ≤ (maskFilter mask tee_ray).reverse.getD (i + 1) 0 →
      tee_zero pte_ray rho_ray vte_ray tee_ray =
        some ((maskFilter mask pte_ray).reverse.getD i 0 +
            (0 - (maskFilter mask tee_ray).reverse.getD i 0) *
              ((maskFilter mask pte_ray).reverse.getD (i + 1) 0 -
                (maskFilter mask pte_ray).reverse.getD i 0) /
              ((maskFilter mask tee_ray).reverse.getD (i + 1) 0 -
                (maskFilter mask tee_ray).reverse.getD i 0),
          (maskFilter mask rho_ray).reverse.getD i 0 +
            (0 - (maskFilter mask tee_ray).reverse.getD i 0) *
              ((maskFilter mask rho_ray).reverse.getD (i + 1) 0 -
                (maskFilter mask rho_ray).reverse.getD i 0) /
              ((maskFilter mask tee_ray).reverse.getD (i + 1) 0 -
                (maskFilter mask tee_ray).reverse.getD i 0),
          (maskFilter mask vte_ray).reverse.getD i 0 +
            (0 - (maskFilter mask tee_ray).reverse.getD i 0) *
              ((maskFilter mask vte_ray).reverse.getD (i + 1) 0 -
                (maskFilter mask vte_ray).reverse.getD i 0) /
              ((maskFilter mask tee_ray).reverse.getD (i + 1) 0 -
                (maskFilter mask tee_ray).reverse.getD i 0))) := by
  have hlen1 : (maskFilter mask tee_ray).reverse.length =
      (maskFilter mask pte_ray).reverse.length := by
    simp [maskFilter_length_eq mask tee_ray pte_ray hlp.symm]
  have hlen2 : (maskFilter mask tee_ray).reverse.length =
      (maskFilter mask rho_ray).reverse.length := by
    simp [maskFilter_length_eq mask tee_ray rho_ray hlr.symm]
  have hlen3 : (maskFilter mask tee_ray).reverse.length =
      (maskFilter mask vte_ray).reverse.length := by
    simp [maskFilter_length_eq mask tee_ray vte_ray hlv.symm]
  have h0 : tee_zero pte_ray rho_ray vte_ray tee_ray =
      some (npInterp 0 (maskFilter mask tee_ray).reverse (maskFilter mask pte_ray).reverse,
        npInterp 0 (maskFilter mask tee_ray).reverse (maskFilter mask rho_ray).reverse,
        npInterp 0 (maskFilter mask tee_ray).reverse (maskFilter mask vte_ray).reverse) := by
    rw [tee_zero, hmask]
    rfl
  refine ⟨h0, ?_, ?_⟩
  · intro hne hpos
    have hne' : (maskFilter mask tee_ray).reverse ≠ [] := by simpa using hne
    have hx : (0 : ℚ) ≤ headQ (maskFilter mask tee_ray).reverse := by
      have hm := headQ_mem _ hne'
      rw [List.mem_reverse] at hm
      exact (hpos _ hm).le
    rw [h0, npInterp_left 0 _ _ hlen1 hne' hx, npInterp_left 0 _ _ hlen2 hne' hx,
      npInterp_left 0 _ _ hlen3 hne' hx]
  · intro i hi hbelow habove
    rw [h0, npInterp_bracket 0 i _ _ hlen1 hi hbelow habove,
      npInterp_bracket 0 i _ _ hlen2 hi hbelow habove,
      npInterp_bracket 0 i _ _ hlen3 hi hbelow habove]

/-- C3 counterexample: concrete two-sample arrays whose positive-slope
masked energies are all positive (no sign change), on which `tee_zero`
returns the endpoint-substituted triple instead of failing with an error. -/
theorem tee_zero_no_crossing_counterexample :
    (∀ t ∈ maskFilter [true, true] [2, 1], (0 : ℚ) < t) ∧
    tee_positive_slope [100, 50] [2, 1] = some [true, true] ∧
    tee_zero [100, 50] [10, 20] [3, 4] [2, 1] = some (50, 20, 4) := by
  refine ⟨?_, ?_, ?_⟩
  · norm_num [maskFilter]
    rintro t (rfl | rfl) <;> norm_num
  · norm_num [tee_positive_slope, np_gradient, gradInterior, last2D]
  · norm_num [tee_zero, tee_positive_slope, np_gradient, gradInterior, last2D,
      maskFilter, npInterp]

/-- Witness for C3 at the concrete two-sample arrays of the counterexample
input: the lookup returns the interpolation triple (hypotheses discharged at
a concrete input). -/
theorem tee_zero_behavior_witness :
    tee_zero [100, 50] [10, 20] [3, 4] [2, 1] =
      some (npInterp 0 (maskFilter [true, true] [2, 1]).reverse
          (maskFilter [true, true] [100, 50]).reverse,
        npInterp 0 (maskFilter [true, true] [2, 1]).reverse
          (maskFilter [true, true] [10, 20]).reverse,
        npInterp 0 (maskFilter [true, true] [2, 1]).reverse
          (maskFilter [true, true] [3, 4]).reverse) :=
  (tee_zero_behavior [100, 50] [10, 20] [3, 4] [2, 1] [true, true]
    (by norm_num [tee_positive_slope, np_gradient, gradInterior, last2D])
    rfl rfl rfl).1

theorem throatLoop_spec (f : ℚ → ℚ) : ∀ (rem : ℕ), 1 ≤ rem → ∀ (prev cur : ℚ) (n : ℕ),
    (throatLoop f rem prev cur n).iters ≤ n + rem ∧
    ((throatLoop f rem prev cur n).warned = false →
      |(throatLoop f rem prev cur n).prev - (throatLoop f rem prev cur n).cur| ≤ 5) ∧
    ((throatLoop f rem prev cur n).warned = true →
      (throatLoop f rem prev cur n).iters = n + rem) := by
  intro rem
  induction rem with
  | zero => intro h; omega
  | succ m ih =>
      intro _ prev cur n
      rw [throatLoop]
      split
      · next hgt =>
          rcases Nat.eq_zero_or_pos m with hm | hm
          · subst hm
            simp only [if_pos rfl]
            exact ⟨by simp, by simp, by simp⟩
          · rw [if_neg (by omega : ¬ m = 0)]
            obtain ⟨ha, hb, hc⟩ := ih (by omega) cur (f cur) (n + 1)
            exact ⟨by omega, hb, fun hw => by rw [hc hw]; omega⟩
      · next hgt =>
          refine ⟨by simp, ?_, by simp⟩
          intro _
          simp only
          linarith [not_lt.mp hgt]

/-- C6: whenever the net momentum at the seed (throat-entry) pressure is
zero — outlet momentum plus half-weighted friction momentum equals nozzle
momentum plus entry momentum, with the seed density conditioned at the
throat-entry pressure — and the momentum-to-psi conversion maps zero to
zero, the first discharge estimate is the throat-entry pressure itself, the
convergence test passes immediately and `throat_discharge` returns the
throat-entry pressure unchanged; in general the loop runs at most 10
iterations, stops without warning only once successive estimates differ by
at most 5 psi, and warns exactly when the 10-iteration cap is hit,
returning the last estimate. -/
theorem throat_discharge_fixed_point (spc : SinglePhase) (mp : MixProps)
    (pte tte kth vnz anz rho_nz vte ate rho_te : ℚ) (T : ThroatResult)
    (hT : T = throat_discharge spc mp pte tte kth vnz anz rho_nz vte ate rho_te) :
    ((throat_outlet_momentum spc kth
          (spc.velocity ((spc.massflow rho_nz vnz anz + spc.massflow rho_te vte ate) /
            mp.rho_mix pte tte) (anz + ate)) (anz + ate) (mp.rho_mix pte tte)).2 +
        (throat_outlet_momentum spc kth
          (spc.velocity ((spc.massflow rho_nz vnz anz + spc.massflow rho_te vte ate) /
            mp.rho_mix pte tte) (anz + ate)) (anz + ate) (mp.rho_mix pte tte)).1 -
        (throat_inlet_momentum spc vnz anz rho_nz vte ate rho_te).1 -
        (throat_inlet_momentum spc vnz anz rho_nz vte ate rho_te).2 = 0 →
      spc.mom_to_psi 0 (anz + ate) = 0 →
      T.cur = pte ∧ T.warned = false ∧ T.iters = 0) ∧
    T.iters ≤ 10 ∧
    (T.warned = false → |T.prev - T.cur| ≤ 5) ∧
    (T.warned = true → T.iters = 10) := by
  subst hT
  simp only [throat_discharge]
  constructor
  · intro hmom hpsi
    simp only [throat_outlet_momentum, throat_inlet_momentum] at hmom
    have hf : throatEstimate spc mp pte tte kth (spc.momentum rho_nz vnz anz)
        (spc.momentum rho_te vte ate)
        (spc.massflow rho_nz vnz anz + spc.massflow rho_te vte ate) (anz + ate) pte
        = pte := by
      simp only [throatEstimate, throat_outlet_momentum]
      rw [show 1 / 2 * kth * spc.momentum (mp.rho_mix pte tte)
          (spc.velocity ((spc.massflow rho_nz vnz anz + spc.massflow rho_te vte ate) /
            mp.rho_mix pte tte) (anz + ate)) (anz + ate) +
          spc.momentum (mp.rho_mix pte tte)
          (spc.velocity ((spc.massflow rho_nz vnz anz + spc.massflow rho_te vte ate) /
            mp.rho_mix pte tte) (anz + ate)) (anz + ate) -
          spc.momentum rho_nz vnz anz - spc.momentum rho_te vte ate = 0 from hmom,
        hpsi, sub_zero]
    simp only [throat_inlet_momentum, hf]
    rw [throatLoop_unfold _ _ _ _ _ (by norm_num), if_neg (by simp)]
    exact ⟨rfl, rfl, rfl⟩
  · simp only [throat_inlet_momentum]
    exact throatLoop_spec _ 10 (by norm_num) pte _ 0

/-- Witness for C6: with zero nozzle and entry velocities every momentum
term vanishes, the seed satisfies the momentum balance exactly and the
function returns the throat-entry pressure 500 unchanged. -/
theorem throat_discharge_fixed_point_witness :
    (throat_discharge specSP (constMix 1 1 1) 500 100 (1/5) 0 1 2 0 1 3).cur = 500 ∧
    (throat_discharge specSP (constMix 1 1 1) 500 100 (1/5) 0 1 2 0 1 3).warned = false ∧
    (throat_discharge specSP (constMix 1 1 1) 500 100 (1/5) 0 1 2 0 1 3).iters = 0 :=
  (throat_discharge_fixed_point specSP (constMix 1 1 1) 500 100 (1/5) 0 1 2 0 1 3 _ rfl).1
    (by norm_num [throat_outlet_momentum, throat_inlet_momentum, specSP, constMix])
    (by norm_num [specSP])

/-- C8: `system_residual` evaluates the jet-pump model at a nozzle-inlet
pressure equal to the surface power-fluid pressure plus the static
power-fluid head at the pump's vertical depth, runs the external outflow
traverse at the jet-pump model's oil rate and mixed fluid properties, and
returns exactly the jet-pump diffuser discharge pressure minus the
terminal (bottom) element of the traverse's pressure profile — in
particular the residual reads nothing of the traverse but that terminal
element. -/
theorem system_residual_spec {M W V : Type}
    (jpo : ℚ → ℚ → ℚ → ℚ → ℚ → ℚ → ℚ → ℚ → ℚ → ℚ → ℚ → InFlow → JetPumpResult M)
    (tdp tdp2 : ℚ → ℚ → ℚ → M → W → V → OutflowResult)
    (dps : ℚ → ℚ → ℚ) (wellbore : W) (wellprof : V)
    (vd inn_area psu pwh tsu rho_pf ppf_surf ken knz kth kdi ath anz : ℚ)
    (ipr_su : InFlow) :
    system_residual jpo tdp dps wellbore wellprof vd inn_area psu pwh tsu rho_pf
        ppf_surf ken knz kth kdi ath anz ipr_su =
      (jpo psu tsu (ppf_surf + dps rho_pf vd) rho_pf ken knz kth kdi ath anz
          inn_area ipr_su).pdi -
        lastD (tdp pwh tsu
          (jpo psu tsu (ppf_surf + dps rho_pf vd) rho_pf ken knz kth kdi ath anz
            inn_area ipr_su).qoil_std
          (jpo psu tsu (ppf_surf + dps rho_pf vd) rho_pf ken knz kth kdi ath anz
            inn_area ipr_su).prop_tm wellbore wellprof).prs_ray ∧
    (lastD (tdp pwh tsu
        (jpo psu tsu (ppf_surf + dps rho_pf vd) rho_pf ken knz kth kdi ath anz
          inn_area ipr_su).qoil_std
        (jpo psu tsu (ppf_surf + dps rho_pf vd) rho_pf ken knz kth kdi ath anz
          inn_area ipr_su).prop_tm wellbore wellprof).prs_ray =
      lastD (tdp2 pwh tsu
        (jpo psu tsu (ppf_surf + dps rho_pf vd) rho_pf ken knz kth kdi ath anz
          inn_area ipr_su).qoil_std
        (jpo psu tsu (ppf_surf + dps rho_pf vd) rho_pf ken knz kth kdi ath anz
          inn_area ipr_su).prop_tm wellbore wellprof).prs_ray →
      system_residual jpo tdp dps wellbore wellprof vd inn_area psu pwh tsu rho_pf
          ppf_surf ken knz kth kdi ath anz ipr_su =
        system_residual jpo tdp2 dps wellbore wellprof vd inn_area psu pwh tsu rho_pf
          ppf_surf ken knz kth kdi ath anz ipr_su) := by
  constructor
  · rfl
  · intro h
    simp only [system_residual]
    rw [h]

theorem teeMinLoop_spec (spc : SinglePhase) (mp : MixProps) (ipr : InFlow)
    (tsu ken ate : ℚ) : ∀ (rem : ℕ) (psuP psuC teeP teeC : ℚ)
    (rOpt : Option TeeResult) (n : ℕ) (pP pC : ℚ) (r : TeeResult) (m : ℕ) (w : Bool),
    teeMinLoop spc mp ipr tsu ken ate rem psuP psuC teeP teeC rOpt n =
      some (pP, pC, r, m, w) →
    m ≤ n + rem ∧ (w = false → |pP - pC| ≤ 5) ∧ (w = true → m = n + rem) := by
  intro rem
  induction rem with
  | zero =>
      intro psuP psuC teeP teeC rOpt n pP pC r m w h
      exact absurd h (by
        rw [show teeMinLoop spc mp ipr tsu ken ate 0 psuP psuC teeP teeC rOpt n =
          none from rfl]
        simp)
  | succ k ih =>
      intro psuP psuC teeP teeC rOpt n pP pC r m w h
      rw [teeMinLoop_unfold spc mp ipr tsu ken ate (k + 1) psuP psuC teeP teeC rOpt n
        (by omega)] at h
      simp only [Nat.add_sub_cancel] at h
      split at h
      · next hgt =>
          rcases hsec : psu_secant psuP psuC teeP teeC with _ | psuN
          · rw [hsec] at h
            exact absurd h (by simp)
          · rw [hsec] at h
            simp only at h
            split at h
            · next hk =>
                subst hk
                simp only [Option.some.injEq, Prod.mk.injEq] at h
                obtain ⟨h1, h2, h3, h4, h5⟩ := h
                subst h4 h5
                exact ⟨by omega, by simp, fun _ => by omega⟩
            · next hk =>
                have := ih psuC psuN teeC
                  (tee_last spc mp ipr psuN tsu ken ate).tee_fin
                  (some (tee_last spc mp ipr psuN tsu ken ate)) (n + 1)
                  pP pC r m w h
                exact ⟨by omega, this.2.1, fun hw => by have := this.2.2 hw; omega⟩
      · next hgt =>
          rcases rOpt with _ | r0
          · exact absurd h (by simp)
          · simp only [Option.some.injEq, Prod.mk.injEq] at h
            obtain ⟨h1, h2, h3, h4, h5⟩ := h
            subst h1 h2 h4 h5
            exact ⟨by omega, fun _ => by linarith [not_lt.mp hgt], by simp⟩

/-- C4 (amended): the secant loop of `tee_minimize` is seeded at reservoir
pressure minus 300 and minus 400 psi; provided no secant step encounters
equal objective values (the unguarded division by zero of `psu_secant`),
the loop always terminates with at most 10 iterations, its non-convergence
warning fires exactly when the 10-iteration cap is hit, it stops without
warning only once successive guesses differ by at most 5 psi, and
`tee_minimize` then returns the last suction-pressure guess together with
the zero-crossing lookup of the latest trace whenever that lookup succeeds
(and propagates the failure otherwise). -/
theorem tee_minimize_loop_spec (spc : SinglePhase) (mp : MixProps) (ipr : InFlow)
    (tsu ken ate : ℚ) (pP pC : ℚ) (r : TeeResult) (m : ℕ) (w : Bool)
    (hloop : teeMinLoop spc mp ipr tsu ken ate 10 (ipr.pres - 300) (ipr.pres - 400)
      (tee_last spc mp ipr (ipr.pres - 300) tsu ken ate).tee_fin
      (tee_last spc mp ipr (ipr.pres - 400) tsu ken ate).tee_fin none 0 =
        some (pP, pC, r, m, w)) :
    m ≤ 10 ∧ (w = false → |pP - pC| ≤ 5) ∧ (w = true → m = 10) ∧
    tee_minimize spc mp ipr tsu ken ate =
      Option.map (fun t : ℚ × ℚ × ℚ => (pC, r.qoil_std, t.1, t.2.1, t.2.2))
        (tee_zero r.pte_ray r.rho_ray r.vte_ray r.tee_ray) := by
  obtain ⟨h1, h2, h3⟩ := teeMinLoop_spec spc mp ipr tsu ken ate 10
    (ipr.pres - 300) (ipr.pres - 400) _ _ none 0 pP pC r m w hloop
  refine ⟨by omega, h2, fun hw => by have := h3 hw; omega, ?_⟩
  have hdef : tee_minimize spc mp ipr tsu ken ate =
      (match teeMinLoop spc mp ipr tsu ken ate 10 (ipr.pres - 300) (ipr.pres - 400)
        (tee_last spc mp ipr (ipr.pres - 300) tsu ken ate).tee_fin
        (tee_last spc mp ipr (ipr.pres - 400) tsu ken ate).tee_fin none 0 with
      | none => none
      | some (_, psuC, rr, _, _) =>
          match tee_zero rr.pte_ray rr.rho_ray rr.vte_ray rr.tee_ray with
          | none => none
          | some (pte, rho_te, vte) => some (psuC, rr.qoil_std, pte, rho_te, vte)) := rfl
  rw [hdef, hloop]
  rcases htz : tee_zero r.pte_ray r.rho_ray r.vte_ray r.tee_ray with _ | ⟨⟨a, b, c⟩⟩ <;>
    simp [htz]

set_option maxHeartbeats 1000000 in
theorem tee_last_eval_700 : tee_last spId mixSecant iprK 700 100 1 1 =
    ⟨225, 7, [700], [1], [15], [225], [15000], [225], [0]⟩ := by
  simp only [tee_last, teeFuel_eq 700 14 (by norm_num) (by norm_num)]
  norm_num [teeLoop_unfold, teeStep, spId, mixSecant, iprK, lastD, headQ,
    enterance_ke, incremental_ee, trapezoid, npInterp]

set_option maxHeartbeats 1000000 in
theorem tee_last_eval_600 : tee_last spId mixSecant iprK 600 100 1 1 =
    ⟨9, 7, [600], [1], [3], [9], [3000], [9], [0]⟩ := by
  simp only [tee_last, teeFuel_eq 600 12 (by norm_num) (by norm_num)]
  norm_num [teeLoop_unfold, teeStep, spId, mixSecant, iprK, lastD, headQ,
    enterance_ke, incremental_ee, trapezoid, npInterp]

set_option maxHeartbeats 1000000 in
theorem tee_last_eval_3575 : tee_last spId mixSecant iprK (3575/6) 100 1 1 =
    ⟨400, 7, [3575/6], [1], [20], [400], [20000], [400], [0]⟩ := by
  simp only [tee_last, teeFuel_eq (3575/6) 12 (by norm_num) (by norm_num)]
  norm_num [teeLoop_unfold, teeStep, spId, mixSecant, iprK, lastD, headQ,
    enterance_ke, incremental_ee, trapezoid, npInterp]

set_option maxHeartbeats 1000000 in
theorem teeMinLoop_eval_concrete : teeMinLoop spId mixSecant iprK 100 1 1 10
    (iprK.pres - 300) (iprK.pres - 400)
    (tee_last spId mixSecant iprK (iprK.pres - 300) 100 1 1).tee_fin
    (tee_last spId mixSecant iprK (iprK.pres - 400) 100 1 1).tee_fin none 0 =
    some (600, 3575/6, tee_last spId mixSecant iprK (3575/6) 100 1 1, 1, false) := by
  have hp : iprK.pres - 300 = (700:ℚ) := by norm_num [iprK]
  have hp2 : iprK.pres - 400 = (600:ℚ) := by norm_num [iprK]
  rw [hp, hp2, tee_last_eval_700, tee_last_eval_600, tee_last_eval_3575]
  norm_num [teeMinLoop_unfold, psu_secant, tee_last_eval_3575,
    show |(25:ℚ)/6| = 25/6 from abs_of_nonneg (by norm_num)]

/-- Witness for C4: with the concrete piecewise collaborators the loop
converges after one secant step (guesses 600 and 3575/6 differ by 25/6),
and `tee_minimize` forwards the last guess through the zero-crossing
lookup of the final single-sample trace. -/
theorem tee_minimize_loop_spec_witness :
    1 ≤ 10 ∧ (false = false → |(600 : ℚ) - 3575/6| ≤ 5) ∧ (false = true → 1 = 10) ∧
    tee_minimize spId mixSecant iprK 100 1 1 =
      Option.map (fun t : ℚ × ℚ × ℚ =>
        ((3575/6 : ℚ), (tee_last spId mixSecant iprK (3575/6) 100 1 1).qoil_std,
          t.1, t.2.1, t.2.2))
        (tee_zero (tee_last spId mixSecant iprK (3575/6) 100 1 1).pte_ray
          (tee_last spId mixSecant iprK (3575/6) 100 1 1).rho_ray
          (tee_last spId mixSecant iprK (3575/6) 100 1 1).vte_ray
          (tee_last spId mixSecant iprK (3575/6) 100 1 1).tee_ray) :=
  tee_minimize_loop_spec spId mixSecant iprK 100 1 1 600 (3575/6)
    (tee_last spId mixSecant iprK (3575/6) 100 1 1) 1 false teeMinLoop_eval_concrete

set_option maxHeartbeats 1000000 in
/-- C4 counterexample: with constant collaborators both secant seeds give
the same objective value, the first secant update divides by zero and
`tee_minimize` fails with the propagated error instead of returning the
last suction-pressure guess. -/
theorem tee_minimize_degenerate_counterexample :
    tee_minimize spId (constMix 1 (1/1000) 5) iprK 100 1 1 = none := by
  have h700 : tee_last spId (constMix 1 (1/1000) 5) iprK 700 100 1 1 =
      ⟨25, 7, [700], [1], [5], [25], [5000], [25], [0]⟩ := by
    simp only [tee_last, teeFuel_eq 700 14 (by norm_num) (by norm_num)]
    norm_num [teeLoop_unfold, teeStep, spId, constMix, iprK, lastD, headQ,
      enterance_ke, incremental_ee, trapezoid, npInterp]
  have h600 : tee_last spId (constMix 1 (1/1000) 5) iprK 600 100 1 1 =
      ⟨25, 7, [600], [1], [5], [25], [5000], [25], [0]⟩ := by
    simp only [tee_last, teeFuel_eq 600 12 (by norm_num) (by norm_num)]
    norm_num [teeLoop_unfold, teeStep, spId, constMix, iprK, lastD, headQ,
      enterance_ke, incremental_ee, trapezoid, npInterp]
  have hdef : tee_minimize spId (constMix 1 (1/1000) 5) iprK 100 1 1 =
      (match teeMinLoop spId (constMix 1 (1/1000) 5) iprK 100 1 1 10
        (iprK.pres - 300) (iprK.pres - 400)
        (tee_last spId (constMix 1 (1/1000) 5) iprK (iprK.pres - 300) 100 1 1).tee_fin
        (tee_last spId (constMix 1 (1/1000) 5) iprK (iprK.pres - 400) 100 1 1).tee_fin
        none 0 with
      | none => none
      | some (_, psuC, rr, _, _) =>
          match tee_zero rr.pte_ray rr.rho_ray rr.vte_ray rr.tee_ray with
          | none => none
          | some (pte, rho_te, vte) => some (psuC, rr.qoil_std, pte, rho_te, vte)) := rfl
  rw [hdef]
  have hp : iprK.pres - 300 = (700:ℚ) := by norm_num [iprK]
  have hp2 : iprK.pres - 400 = (600:ℚ) := by norm_num [iprK]
  rw [hp, hp2, h700, h600]
  norm_num [teeMinLoop_unfold, psu_secant]

theorem natCast_succ_q (k : ℕ) : ((k + 1 : ℕ) : ℚ) = (k : ℚ) + 1 := by
  push_cast
  ring

theorem dteList_concat (K d : ℚ) (k : ℕ) :
    dteList K d (k + 1) = dteList K d k ++ [K + ((k : ℚ) + 1) * d] := by
  rw [dteList, dteList, List.range_succ, List.map_append, List.map_singleton,
    natCast_succ_q]

theorem pdiList_concat (ptm : ℚ) (k : ℕ) :
    pdiList ptm (k + 1) = pdiList ptm k ++ [ptm + ((k : ℚ) + 1) * 100] := by
  rw [pdiList, pdiList, List.range_succ, List.map_append, List.map_singleton,
    natCast_succ_q]

theorem dteList_lastD (K d : ℚ) (k : ℕ) : lastD (dteList K d k) = K + (k : ℚ) * d := by
  induction k with
  | zero => rfl
  | succ n ih =>
      rw [dteList_concat, lastD_concat, natCast_succ_q]

theorem pdiList_lastD (ptm : ℚ) (k : ℕ) : lastD (pdiList ptm k) = ptm + (k : ℚ) * 100 := by
  induction k with
  | zero => rfl
  | succ n ih =>
      rw [pdiList_concat, lastD_concat, natCast_succ_q]

theorem dteList_length (K d : ℚ) (k : ℕ) : (dteList K d k).length = k + 1 := by
  rw [dteList, List.length_map, List.length_range]

theorem pdiList_length (ptm : ℚ) (k : ℕ) : (pdiList ptm k).length = k + 1 := by
  rw [pdiList, List.length_map, List.length_range]

theorem dteList_getD (K d : ℚ) (k i : ℕ) (h : i < k + 1) :
    (dteList K d k).getD i 0 = K + (i : ℚ) * d := by
  rw [dteList, List.getD_eq_getElem _ _ (by rw [List.length_map, List.length_range]; exact h)]
  rw [List.getElem_map, List.getElem_range]

theorem pdiList_getD (ptm : ℚ) (k i : ℕ) (h : i < k + 1) :
    (pdiList ptm k).getD i 0 = ptm + (i : ℚ) * 100 := by
  rw [pdiList, List.getD_eq_getElem _ _ (by rw [List.length_map, List.length_range]; exact h)]
  rw [List.getElem_map, List.getElem_range]

theorem dteList_ne_nil (K d : ℚ) (k : ℕ) : dteList K d k ≠ [] := by
  intro h
  have := congrArg List.length h
  rw [dteList_length] at this
  simp at this

theorem dteList_mem (K d t : ℚ) (k : ℕ) (h : t ∈ dteList K d k) :
    ∃ i : ℕ, i ≤ k ∧ t = K + (i : ℚ) * d := by
  rw [dteList] at h
  obtain ⟨i, hi, rfl⟩ := List.mem_map.mp h
  rw [List.mem_range] at hi
  exact ⟨i, by omega, rfl⟩

theorem incremental_ee_const (p rho : ℚ) :
    incremental_ee [p, p + 100] [rho, rho] = 144 * 32.174 * 100 / rho := by
  simp only [incremental_ee, List.map_cons, List.map_nil, trapezoid]
  ring

theorem diffLoop_const (rho c q ttm kdi adi qoil vtm ptm K d : ℚ)
    (hK : K = diffuser_ke kdi vtm (specSP.velocity q adi))
    (hd : d = 144 * 32.174 * 100 / rho) :
    ∀ (rem j : ℕ) (st : DiffState),
      st.pdi_ray = pdiList ptm j →
      st.rho_ray ≠ [] →
      lastD st.rho_ray = rho →
      lastD st.ese_ray = (j : ℚ) * d →
      st.dte_ray = dteList K d j →
      (∀ i : ℕ, i < j → K + (i : ℚ) * d < 0) →
      ∃ (m : ℕ) (st2 : DiffState) (w : Bool),
        diffLoop specSP (constMix rho c q) ttm kdi adi qoil vtm rem st = (st2, w) ∧
        st2.pdi_ray = pdiList ptm (j + m) ∧
        st2.dte_ray = dteList K d (j + m) ∧
        (∀ i : ℕ, i < j + m → K + (i : ℚ) * d < 0) ∧
        (0 ≤ K + ((j + m : ℕ) : ℚ) * d ∨ m = rem) ∧
        m ≤ rem := by
  intro rem
  induction rem with
  | zero =>
      intro j st h1 h2 h3 h4 h5 h6
      exact ⟨0, st, false, rfl, by simpa using h1, by simpa using h5,
        by simpa using h6, Or.inr rfl, le_rfl⟩
  | succ n ih =>
      intro j st h1 h2 h3 h4 h5 h6
      rw [diffLoop_unfold _ _ _ _ _ _ _ _ _ (by omega)]
      simp only [Nat.add_sub_cancel]
      by_cases hg : lastD st.dte_ray < 0
      · rw [if_pos hg]
        have hglt : K + (j : ℚ) * d < 0 := by
          rw [h5, dteList_lastD] at hg
          exact hg
        have hpdi2 : (diffStep specSP (constMix rho c q) ttm kdi adi qoil vtm st).pdi_ray
            = pdiList ptm (j + 1) := by
          simp only [diffStep]
          rw [h1, pdiList_lastD, pdiList_concat,
            show ptm + (j : ℚ) * 100 + 100 = ptm + ((j : ℚ) + 1) * 100 from by ring]
        have hrho2ne : (diffStep specSP (constMix rho c q) ttm kdi adi qoil vtm st).rho_ray
            ≠ [] := by
          simp [diffStep]
        have hrho2 : lastD (diffStep specSP (constMix rho c q) ttm kdi adi qoil vtm st).rho_ray
            = rho := by
          simp only [diffStep]
          rw [lastD_concat]
          rfl
        have hese2 : lastD (diffStep specSP (constMix rho c q) ttm kdi adi qoil vtm st).ese_ray
            = ((j + 1 : ℕ) : ℚ) * d := by
          simp only [diffStep]
          rw [lastD_concat, h1, pdiList_lastD, h3, h4]
          show (j : ℚ) * d + incremental_ee [ptm + (j : ℚ) * 100, ptm + (j : ℚ) * 100 + 100]
            [rho, rho] = _
          rw [incremental_ee_const, ← hd, natCast_succ_q]
          ring
        have hdte2 : (diffStep specSP (constMix rho c q) ttm kdi adi qoil vtm st).dte_ray
            = dteList K d (j + 1) := by
          simp only [diffStep]
          rw [h5, dteList_concat]
          congr 1
          have he : lastD st.ese_ray + incremental_ee
              [lastD st.pdi_ray, lastD st.pdi_ray + 100]
              [lastD st.rho_ray, (constMix rho c q).rho_mix (lastD st.pdi_ray + 100) ttm]
              = ((j : ℚ) + 1) * d := by
            rw [h4, h3, h1, pdiList_lastD]
            show (j : ℚ) * d + incremental_ee [ptm + (j : ℚ) * 100, ptm + (j : ℚ) * 100 + 100]
              [rho, rho] = _
            rw [incremental_ee_const, ← hd]
            ring
          rw [he, hK]
          rfl
        have hneg2 : ∀ i : ℕ, i < j + 1 → K + (i : ℚ) * d < 0 := by
          intro i hi
          rcases Nat.lt_or_ge i j with h | h
          · exact h6 i h
          · have : i = j := by omega
            subst this
            exact hglt
        by_cases hn : n = 0
        · rw [if_pos hn]
          refine ⟨1, _, true, rfl, hpdi2, hdte2, hneg2, Or.inr (by omega), by omega⟩
        · rw [if_neg hn]
          obtain ⟨m', st3, w, heq, hp3, hd3, hn3, hdisj, hm'⟩ :=
            ih (j + 1) _ hpdi2 hrho2ne hrho2 hese2 hdte2 hneg2
          refine ⟨m' + 1, st3, w, heq, ?_, ?_, ?_, ?_, by omega⟩
          · rw [show j + (m' + 1) = j + 1 + m' from by omega]
            exact hp3
          · rw [show j + (m' + 1) = j + 1 + m' from by omega]
            exact hd3
          · intro i hi
            exact hn3 i (by omega)
          · rcases hdisj with h | h
            · left
              rw [show j + (m' + 1) = j + 1 + m' from by omega]
              exact h
            · right
              omega
      · rw [if_neg hg]
        refine ⟨0, st, false, rfl, by simpa using h1, by simpa using h5,
          by simpa using h6, ?_, by omega⟩
        left
        rw [h5, dteList_lastD] at hg
        push_neg at hg
        simpa using hg

theorem dteList_headQ (K d : ℚ) (k : ℕ) : headQ (dteList K d k) = K := by
  rw [dteList, List.range_succ_eq_map, List.map_cons]
  simp [headQ]

theorem pdiList_headQ (ptm : ℚ) (k : ℕ) : headQ (pdiList ptm k) = ptm := by
  rw [pdiList, List.range_succ_eq_map, List.map_cons]
  simp [headQ]

theorem diffuser_discharge_const (rho c q ptm ttm kdi ath adi qoil K d : ℚ)
    (hrho : 0 < rho)
    (hK : K = diffuser_ke kdi (specSP.velocity q ath) (specSP.velocity q adi))
    (hd : d = 144 * 32.174 * 100 / rho) :
    (diffuser_discharge specSP (constMix rho c q) ptm ttm kdi ath adi qoil).pdi =
      if 0 ≤ K then ptm
      else if 0 ≤ K + 15 * d then ptm - 100 * K / d
      else ptm + 1500 := by
  have hdpos : 0 < d := by
    rw [hd]
    exact div_pos (by norm_num) hrho
  obtain ⟨m, st2, w, heq, hp, hdte, hneg, hdisj, hm⟩ :=
    diffLoop_const rho c q ttm kdi adi qoil (specSP.velocity q ath) ptm K d hK hd 15 0
      { pdi_ray := [ptm]
        vdi_ray := [specSP.velocity q adi]
        rho_ray := [rho]
        kse_ray := [diffuser_ke kdi (specSP.velocity q ath) (specSP.velocity q adi)]
        ese_ray := [0]
        dte_ray := [diffuser_ke kdi (specSP.velocity q ath) (specSP.velocity q adi) + 0] }
      (by simp [pdiList, List.range_succ, List.range_zero])
      (by simp)
      (by simp [lastD])
      (by simp [lastD])
      (by rw [hK]; simp [dteList, List.range_succ, List.range_zero])
      (by intro i hi; omega)
  simp only [Nat.zero_add] at hp hdte hneg hdisj
  have hdef : (diffuser_discharge specSP (constMix rho c q) ptm ttm kdi ath adi qoil).pdi =
      npInterp 0
        (diffLoop specSP (constMix rho c q) ttm kdi adi qoil (specSP.velocity q ath) 15
          { pdi_ray := [ptm]
            vdi_ray := [specSP.velocity q adi]
            rho_ray := [rho]
            kse_ray := [diffuser_ke kdi (specSP.velocity q ath) (specSP.velocity q adi)]
            ese_ray := [0]
            dte_ray := [diffuser_ke kdi (specSP.velocity q ath)
              (specSP.velocity q adi) + 0] }).1.dte_ray
        (diffLoop specSP (constMix rho c q) ttm kdi adi qoil (specSP.velocity q ath) 15
          { pdi_ray := [ptm]
            vdi_ray := [specSP.velocity q adi]
            rho_ray := [rho]
            kse_ray := [diffuser_ke kdi (specSP.velocity q ath) (specSP.velocity q adi)]
            ese_ray := [0]
            dte_ray := [diffuser_ke kdi (specSP.velocity q ath)
              (specSP.velocity q adi) + 0] }).1.pdi_ray := rfl
  rw [hdef, heq]
  show npInterp 0 st2.dte_ray st2.pdi_ray =
    if 0 ≤ K then ptm else if 0 ≤ K + 15 * d then ptm - 100 * K / d else ptm + 1500
  rw [hdte, hp]
  by_cases hKpos : 0 ≤ K
  · rw [if_pos hKpos]
    have hm0 : m = 0 := by
      by_contra hne
      have h0 := hneg 0 (by omega)
      norm_num at h0
      linarith
    subst hm0
    rw [npInterp_left 0 (dteList K d 0) (pdiList ptm 0)
      (by rw [dteList_length, pdiList_length]) (dteList_ne_nil K d 0)
      (by rw [dteList_headQ]; exact hKpos), pdiList_headQ]
  · rw [if_neg hKpos]
    have hKneg : K < 0 := not_le.mp hKpos
    have hm1 : 1 ≤ m := by
      by_contra hc
      have hm0 : m = 0 := by omega
      rcases hdisj with h | h
      · rw [hm0] at h
        norm_num at h
        linarith
      · omega
    by_cases hB : 0 ≤ K + 15 * d
    · rw [if_pos hB]
      have hcross : 0 ≤ K + (m : ℚ) * d := by
        rcases hdisj with h | h
        · exact h
        · rw [h]
          push_cast
          linarith
      have hbr := npInterp_bracket 0 (m - 1) (dteList K d m) (pdiList ptm m)
        (by rw [dteList_length, pdiList_length])
        (by rw [dteList_length]; omega)
        (fun j hj => by
          rw [dteList_getD K d m j (by omega)]
          have hj2 := hneg j (by omega)
          linarith)
        (by
          rw [show m - 1 + 1 = m from by omega, dteList_getD K d m m (by omega)]
          exact hcross)
      rw [show m - 1 + 1 = m from by omega] at hbr
      rw [hbr, dteList_getD K d m (m - 1) (by omega), dteList_getD K d m m (by omega),
        pdiList_getD ptm m (m - 1) (by omega), pdiList_getD ptm m m (by omega),
        Nat.cast_sub hm1, Nat.cast_one]
      have hd0 : d ≠ 0 := ne_of_gt hdpos
      rw [show K + (m : ℚ) * d - (K + ((m : ℚ) - 1) * d) = d from by ring,
        show ptm + (m : ℚ) * 100 - (ptm + ((m : ℚ) - 1) * 100) = 100 from by ring]
      field_simp
      ring
    · rw [if_neg hB]
      have hBneg : K + 15 * d < 0 := not_le.mp hB
      have hm15 : m = 15 := by
        rcases hdisj with h | h
        · exfalso
          have hmle : (m : ℚ) ≤ 15 := by exact_mod_cast hm
          nlinarith [mul_nonneg (sub_nonneg.mpr hmle) hdpos.le]
        · exact h
      subst hm15
      rw [npInterp_right 0 (dteList K d 15) (pdiList ptm 15)
        (by rw [dteList_length, pdiList_length]) (dteList_ne_nil K d 15)
        (fun t ht => by
          obtain ⟨i, hi, rfl⟩ := dteList_mem K d t 15 ht
          have hile : (i : ℚ) ≤ 15 := by exact_mod_cast hi
          nlinarith [mul_nonneg (sub_nonneg.mpr hile) hdpos.le]), pdiList_lastD]
      norm_num

/-- C7: the claim asserts the diffuser discharge pressure returned by
`diffuser_discharge` is monotone NON-DECREASING in the friction factor
`kdi`; the code gives the opposite direction, `diffuser_ke` grows with
`kdi`, the diffuser energy reaches zero at a lower pressure, and the
returned discharge pressure is smaller or equal.  Corrected statement,
for pressure-independent collaborators with positive mixture density:
`kdi1 ≤ kdi2` implies `pdi(kdi2) ≤ pdi(kdi1)` (monotone non-increasing). -/
theorem diffuser_discharge_kdi_antitone (rho c q ptm ttm ath adi qoil kdi1 kdi2 : ℚ)
    (hrho : 0 < rho) (hk : kdi1 ≤ kdi2) :
    (diffuser_discharge specSP (constMix rho c q) ptm ttm kdi2 ath adi qoil).pdi ≤
      (diffuser_discharge specSP (constMix rho c q) ptm ttm kdi1 ath adi qoil).pdi := by
  have hdpos : 0 < 144 * 32.174 * 100 / rho := div_pos (by norm_num) hrho
  rw [diffuser_discharge_const rho c q ptm ttm kdi1 ath adi qoil
      (diffuser_ke kdi1 (specSP.velocity q ath) (specSP.velocity q adi))
      (144 * 32.174 * 100 / rho) hrho rfl rfl,
    diffuser_discharge_const rho c q ptm ttm kdi2 ath adi qoil
      (diffuser_ke kdi2 (specSP.velocity q ath) (specSP.velocity q adi))
      (144 * 32.174 * 100 / rho) hrho rfl rfl]
  have hK12 : diffuser_ke kdi1 (specSP.velocity q ath) (specSP.velocity q adi) ≤
      diffuser_ke kdi2 (specSP.velocity q ath) (specSP.velocity q adi) := by
    show diffuser_ke kdi1 (q / ath) (q / adi) ≤ diffuser_ke kdi2 (q / ath) (q / adi)
    simp only [diffuser_ke]
    nlinarith [sq_nonneg (q / ath)]
  set K1 := diffuser_ke kdi1 (specSP.velocity q ath) (specSP.velocity q adi) with hK1
  set K2 := diffuser_ke kdi2 (specSP.velocity q ath) (specSP.velocity q adi) with hK2
  set d := 144 * 32.174 * 100 / rho with hdd
  split_ifs <;>
    first
    | linarith
    | linarith [div_neg_of_neg_of_pos (show 100 * K1 < 0 by linarith) hdpos]
    | linarith [(div_le_div_iff_of_pos_right hdpos).mpr (show 100 * K1 ≤ 100 * K2 by linarith)]
    | linarith [(le_div_iff₀ hdpos).mpr (show (-1500 : ℚ) * d ≤ 100 * K2 by linarith)]

/-- Counterexample to C7 as stated: with ideal single-phase helpers, a
constant mixture of density 4633.056 lbm/ft3 (making the expansion-energy
increment exactly 100 per step), throat-mixture pressure 100, throat area
1 and diffuser area 2, raising the friction factor from 0 to 1/2 LOWERS
the diffuser discharge pressure from 101.5 to 100.5, refuting
non-decreasing monotonicity in `kdi`. -/
theorem diffuser_discharge_kdi_counterexample :
    (0 : ℚ) ≤ 1 / 2 ∧
    (diffuser_discharge specSP (constMix (579132 / 125) 1 2) 100 80 (1 / 2) 1 2 5).pdi <
      (diffuser_discharge specSP (constMix (579132 / 125) 1 2) 100 80 0 1 2 5).pdi := by
  refine ⟨by norm_num, ?_⟩
  rw [diffuser_discharge_const (579132 / 125) 1 2 100 80 (1 / 2) 1 2 5
      (diffuser_ke (1 / 2) (2 / 1) (2 / 2)) 100 (by norm_num) rfl (by norm_num),
    diffuser_discharge_const (579132 / 125) 1 2 100 80 0 1 2 5
      (diffuser_ke 0 (2 / 1) (2 / 2)) 100 (by norm_num) rfl (by norm_num)]
  norm_num [diffuser_ke]

/-- Witness instantiating the corrected C7 theorem at the counterexample
inputs: `kdi1 = 0 ≤ kdi2 = 1/2` gives `pdi(1/2) ≤ pdi(0)`. -/
theorem diffuser_discharge_kdi_antitone_witness :
    (0 : ℚ) < 579132 / 125 ∧ (0 : ℚ) ≤ 1 / 2 ∧
    (diffuser_discharge specSP (constMix (579132 / 125) 1 2) 100 80 (1 / 2) 1 2 5).pdi ≤
      (diffuser_discharge specSP (constMix (579132 / 125) 1 2) 100 80 0 1 2 5).pdi :=
  ⟨by norm_num, by norm_num,
    diffuser_discharge_kdi_antitone (579132 / 125) 1 2 100 80 1 2 5 0 (1 / 2)
      (by norm_num) (by norm_num)⟩
